import Mathlib

/-!
# simple-subscription: process bootstrap, mail channels and graceful shutdown

A shallow embedding of `cmd/web/main.go` and `cmd/web/config.go`.

* Pointers and channel values are references (`Ref`): `none` is Go's nil, `some a`
  an address in the store.
* The store holds the channel heap and the wait-group heap.  Channel operations
  follow the Go language semantics: a send on a channel completes when a receiver
  is waiting or the buffer has room, blocks otherwise, and panics when the channel
  is closed; closing a nil or closed channel panics; `Wait` blocks while the
  counter of the wait group is not zero.
* A goroutine is a straight-line list of instructions executed one at a time by
  `Sys.tick`; the rest of the program (producers, the consumer loop, the operating
  system) acts through the other constructors of `Event`, and a panic in any
  goroutine ends the process.  A run is a fold of `Sys.step` over an arbitrary
  list of events, so a statement about every run is a statement about every
  interleaving.
* `ConnectToDB` and `main` are functions of what their collaborators return (the
  database driver, the HTTP server) and yield the calls they make, in order.
-/

namespace Subscription

/-! ## Values, channels and the store -/

/-- A Go pointer or channel value: `none` is nil, `some a` an address. -/
abbrev Ref := Option Nat

/-- Operating-system signals (the ones a terminal or a supervisor sends). -/
inductive Signal
  | SIGHUP
  | SIGINT
  | SIGQUIT
  | SIGTERM
  deriving DecidableEq, Repr

/-- Modelled from the spec: the declaration of `Message` is in a source file that is
not present; the fields are the ones section 3 lists (recipient, subject, body,
attachments, sender identity). -/
structure Message where
  recipient : String
  subject : String
  body : String
  attachments : List String
  fromAddress : String
  fromName : String
  deriving DecidableEq, Repr

/-- What travels on a channel: `chan bool`, `chan error`, `chan Message`. -/
inductive Val
  | bool (b : Bool)
  | err (e : String)
  | msg (m : Message)
  deriving DecidableEq, Repr

/-- A channel object as the Go runtime keeps it: the capacity given to `make`, the
buffered values (oldest first), the closed flag, and how many other goroutines are
parked in a receive on it. -/
structure Chan where
  cap : Nat
  buf : List Val
  closed : Bool
  recvq : Nat
  deriving DecidableEq, Repr

/-- The result of `make(chan T, cap)`: open, empty, nobody waiting. -/
def Chan.make (cap : Nat) : Chan :=
  { cap := cap, buf := [], closed := false, recvq := 0 }

/-- The shared memory of the process: channels and `sync.WaitGroup` counters. -/
structure Store where
  chans : List Chan
  wgs : List Nat
  deriving DecidableEq, Repr

/-- How an operation that may block ends. -/
inductive Outcome (α : Type)
  | ok (a : α)
  | blocked
  | panicked
  deriving DecidableEq, Repr

/-- Allocation of a channel with `make`: the new channel gets the next address. -/
def Store.makeChan (w : Store) (cap : Nat) : Ref × Store :=
  (some w.chans.length, { w with chans := w.chans ++ [Chan.make cap] })

/-- Allocation of a zero `sync.WaitGroup`. -/
def Store.newWaitGroup (w : Store) : Ref × Store :=
  (some w.wgs.length, { w with wgs := w.wgs ++ [0] })

/-- The channel a reference points to. -/
def Store.chan? (w : Store) (c : Ref) : Option Chan :=
  match c with
  | none => none
  | some a => w.chans[a]?

/-- The counter of the wait group a reference points to. -/
def Store.counter? (w : Store) (g : Ref) : Option Nat :=
  match g with
  | none => none
  | some a => w.wgs[a]?

/-- Statement `c <- v`.  On a nil channel it blocks forever; on a closed channel it
panics; with a receiver parked the value is handed over directly; with room in the
buffer it is enqueued; otherwise the sender blocks.  (An address at which there is no
channel is treated as nil, here and below.) -/
def Store.send (w : Store) (c : Ref) (v : Val) : Outcome Store :=
  match c with
  | none => .blocked
  | some a =>
    match w.chans[a]? with
    | none => .blocked
    | some ch =>
      if ch.closed then .panicked
      else if 0 < ch.recvq then
        .ok { w with chans := w.chans.set a { ch with recvq := ch.recvq - 1 } }
      else if ch.buf.length < ch.cap then
        .ok { w with chans := w.chans.set a { ch with buf := ch.buf ++ [v] } }
      else .blocked

/-- Builtin `close(c)`: panics on a nil or already closed channel; otherwise marks
the channel closed and wakes every parked receiver. -/
def Store.close (w : Store) (c : Ref) : Outcome Store :=
  match c with
  | none => .panicked
  | some a =>
    match w.chans[a]? with
    | none => .panicked
    | some ch =>
      if ch.closed then .panicked
      else .ok { w with chans := w.chans.set a { ch with closed := true, recvq := 0 } }

/-- Another goroutine arrives at a receive on channel `a` (a plain `<-c` or a case
of a `select`): it takes the oldest buffered value if there is one, returns at once
on a closed channel, and parks otherwise. -/
def Store.recv (w : Store) (a : Nat) : Store :=
  match w.chans[a]? with
  | none => w
  | some ch =>
    match ch.buf with
    | _ :: rest => { w with chans := w.chans.set a { ch with buf := rest } }
    | [] =>
      if ch.closed then w
      else { w with chans := w.chans.set a { ch with recvq := ch.recvq + 1 } }

/-- Method `(*sync.WaitGroup).Wait`: returns when the counter is zero, blocks
otherwise; a nil receiver is a nil dereference. -/
def Store.wgWait (w : Store) (g : Ref) : Outcome Store :=
  match g with
  | none => .panicked
  | some a =>
    match w.wgs[a]? with
    | none => .panicked
    | some n => if n = 0 then .ok w else .blocked

/-- Method `(*sync.WaitGroup).Add(delta)` with a positive `delta`. -/
def Store.wgAdd (w : Store) (a : Nat) (delta : Nat) : Outcome Store :=
  match w.wgs[a]? with
  | none => .panicked
  | some n => .ok { w with wgs := w.wgs.set a (n + delta) }

/-- Method `(*sync.WaitGroup).Done()`: it panics when the counter would become
negative. -/
def Store.wgDone (w : Store) (a : Nat) : Outcome Store :=
  match w.wgs[a]? with
  | none => .panicked
  | some n => if n = 0 then .panicked else .ok { w with wgs := w.wgs.set a (n - 1) }

/-! ## config.go and the Mailer -/

/-- Modelled from the spec: the declaration of `Mail` is in a source file that is not
present; the fields are the ones the composite literal in `createMail` sets, which
section 3 describes as the queue, the error-report channel, the done signal, the
shared counter and the static delivery configuration. -/
structure Mail where
  Domain : String
  Host : String
  Port : Int
  Encryption : String
  FromAddress : String
  FromName : String
  Wait : Ref
  ErrorChan : Ref
  MailerChan : Ref
  DoneChan : Ref
  deriving DecidableEq, Repr

/-- The zero value of `Mail`: empty strings, nil pointer, nil channels. -/
def Mail.zero : Mail :=
  { Domain := "", Host := "", Port := 0, Encryption := "", FromAddress := "",
    FromName := "", Wait := none, ErrorChan := none, MailerChan := none,
    DoneChan := none }

/-- Type `Config` of config.go.  `Models` is a value of the absent package `data`;
it is kept as an identifier of the value `data.New` returned. -/
structure Config where
  Session : Ref
  DB : Ref
  InfoLog : Ref
  ErrorLog : Ref
  Wait : Ref
  Models : Nat
  Mailer : Mail
  deriving DecidableEq, Repr

/-- Method `(app *Config) createMail() Mail`.  The receiver is a pointer, so the
receiver object after the call is returned next to the result and the store. -/
def createMail (app : Config) (w : Store) : Mail × Config × Store :=
  let (errorChan, w1) := w.makeChan 0
  let (mailChan, w2) := w1.makeChan 100
  let (mailerDoneChan, w3) := w2.makeChan 0
  let m : Mail :=
    { Domain := "localhost"
      Host := "localhost"
      Port := 1025
      Encryption := "none"
      FromAddress := "mohammad@erfani.com"
      FromName := "mohammad"
      Wait := app.Wait
      ErrorChan := errorChan
      MailerChan := mailChan
      DoneChan := mailerDoneChan }
  (m, app, w3)

/-! ## Goroutines: instructions, threads, events -/

/-- The statements of `shutdown` and `listenForShutdown`. -/
inductive Instr
  /-- Call `logger.Println(msg)`. -/
  | println (logger : Ref) (msg : String)
  /-- Call `wg.Wait()`. -/
  | wgWait (wg : Ref)
  /-- Statement `c <- v`. -/
  | send (c : Ref) (v : Val)
  /-- Call `close(c)`. -/
  | close (c : Ref)
  /-- Statement `quit := make(chan os.Signal)`. -/
  | makeQuit
  /-- Call `signal.Notify(quit, sigs...)`. -/
  | notifyQuit (sigs : List Signal)
  /-- Statement `<-quit`. -/
  | recvQuit
  /-- Call `os.Exit(code)`. -/
  | exit (code : Int)
  deriving DecidableEq, Repr

/-- Method `(app *Config) shutdown()`. -/
def shutdown (app : Config) : List Instr :=
  [ .println app.InfoLog "run cleanup task",
    .wgWait app.Wait,
    .send app.Mailer.DoneChan (.bool true),
    .println app.InfoLog "closing channels and shutting down application...",
    .close app.Mailer.MailerChan,
    .close app.Mailer.ErrorChan,
    .close app.Mailer.DoneChan ]

/-- Method `(app *Config) listenForShutdown()`. -/
def listenForShutdown (app : Config) : List Instr :=
  [ .makeQuit,
    .notifyQuit [.SIGINT, .SIGTERM],
    .recvQuit ]
  ++ shutdown app
  ++ [ .exit 0 ]

/-- How far a goroutine (and with it the process) has come. -/
inductive Status
  | running
  | panicked
  | exited (code : Int)
  | killed (sg : Signal)
  deriving DecidableEq, Repr

/-- The local channel `quit` of `listenForShutdown`.  It never leaves the function
except as the argument of `signal.Notify`, so it is kept with the goroutine:
`pending` holds the signals buffered in it. -/
structure SigChan where
  cap : Nat
  pending : List Signal
  deriving DecidableEq, Repr

/-- A goroutine: what is left to run, what has run, its local `quit` channel, the
signals `signal.Notify` relays to it, and its status. -/
structure Thread where
  prog : List Instr
  trace : List Instr
  quit : Option SigChan
  relay : Option (List Signal)
  status : Status
  deriving DecidableEq, Repr

/-- The process as seen from one goroutine. -/
structure Sys where
  world : Store
  thread : Thread
  deriving DecidableEq, Repr

/-- A goroutine about to run `p` on the store `w`. -/
def Sys.boot (w : Store) (p : List Instr) : Sys :=
  { world := w,
    thread := { prog := p, trace := [], quit := none, relay := none, status := .running } }

/-- Whether `signal.Notify(c, sigs...)` relays `sg`: with no signal listed, all
signals are relayed. -/
def relays (sigs : List Signal) (sg : Signal) : Bool :=
  sigs.isEmpty || sigs.contains sg

/-- The head instruction has completed: it moves to the trace. -/
def Thread.advance (t : Thread) (i : Instr) (rest : List Instr) : Thread :=
  { t with prog := rest, trace := t.trace ++ [i] }

/-- One scheduling slot of the goroutine: it tries its next instruction.  A blocked
instruction leaves everything as it is; a panic or an exit ends the goroutine. -/
def Sys.tick (s : Sys) : Sys :=
  match s.thread.status, s.thread.prog with
  | .running, i :: rest =>
    match i with
    | .println logger _ =>
      match logger with
      | none => { s with thread := { s.thread with status := .panicked } }
      | some _ => { s with thread := s.thread.advance i rest }
    | .wgWait g =>
      match s.world.wgWait g with
      | .ok w => { world := w, thread := s.thread.advance i rest }
      | .blocked => s
      | .panicked => { s with thread := { s.thread with status := .panicked } }
    | .send c v =>
      match s.world.send c v with
      | .ok w => { world := w, thread := s.thread.advance i rest }
      | .blocked => s
      | .panicked => { s with thread := { s.thread with status := .panicked } }
    | .close c =>
      match s.world.close c with
      | .ok w => { world := w, thread := s.thread.advance i rest }
      | .blocked => s
      | .panicked => { s with thread := { s.thread with status := .panicked } }
    | .makeQuit =>
      { s with thread := { s.thread.advance i rest with quit := some { cap := 0, pending := [] } } }
    | .notifyQuit sigs =>
      match s.thread.quit with
      | none => { s with thread := { s.thread with status := .panicked } }
      | some _ => { s with thread := { s.thread.advance i rest with relay := some sigs } }
    | .recvQuit =>
      match s.thread.quit with
      | none => s
      | some q =>
        match q.pending with
        | _ :: more =>
          { s with thread := { s.thread.advance i rest with quit := some { q with pending := more } } }
        | [] => s
    | .exit code =>
      { s with thread := { s.thread.advance i rest with status := .exited code } }
  | _, _ => s

/-- The operating system delivers `sg` to the process.  A signal that no
`signal.Notify` relays takes its default action and ends the process.  A relayed
signal is sent on `quit` without blocking: it is handed to the goroutine if that is
waiting in `<-quit`, buffered if the channel has room, and dropped otherwise. -/
def Sys.signal (s : Sys) (sg : Signal) : Sys :=
  match s.thread.status with
  | .running =>
    match s.thread.relay, s.thread.quit with
    | some sigs, some q =>
      if relays sigs sg then
        match s.thread.prog with
        | .recvQuit :: rest =>
          if q.pending.isEmpty then { s with thread := s.thread.advance .recvQuit rest }
          else if q.pending.length < q.cap then
            { s with thread := { s.thread with quit := some { q with pending := q.pending ++ [sg] } } }
          else s
        | _ =>
          if q.pending.length < q.cap then
            { s with thread := { s.thread with quit := some { q with pending := q.pending ++ [sg] } } }
          else s
      else { s with thread := { s.thread with status := .killed sg } }
    | _, _ => { s with thread := { s.thread with status := .killed sg } }
  | _ => s

/-- What can happen between two states of the process. -/
inductive Event
  /-- The goroutine under study gets a scheduling slot. -/
  | tick
  /-- Another goroutine calls `Add(delta)` on the wait group at `g`. -/
  | wgAdd (g : Nat) (delta : Nat)
  /-- Another goroutine calls `Done()` on the wait group at `g`. -/
  | wgDone (g : Nat)
  /-- Another goroutine arrives at a receive on the channel at `c`. -/
  | recv (c : Nat)
  /-- Another goroutine tries to send `v` on the channel at `c`. -/
  | send (c : Nat) (v : Val)
  /-- The operating system delivers a signal. -/
  | signal (sg : Signal)
  deriving DecidableEq, Repr

/-- The outcome of an operation of another goroutine: the store moves on when the
operation completes, nothing happens while it is blocked, and a panic in any
goroutine ends the process. -/
def Sys.settle (s : Sys) (o : Outcome Store) : Sys :=
  match o with
  | .ok w => { s with world := w }
  | .blocked => s
  | .panicked => { s with thread := { s.thread with status := .panicked } }

/-- One event. Once the process has ended nothing happens any more. -/
def Sys.step (s : Sys) (e : Event) : Sys :=
  match s.thread.status with
  | .running =>
    match e with
    | .tick => s.tick
    | .wgAdd g delta => s.settle (s.world.wgAdd g delta)
    | .wgDone g => s.settle (s.world.wgDone g)
    | .recv c => { s with world := s.world.recv c }
    | .send c v => s.settle (s.world.send (some c) v)
    | .signal sg => s.signal sg
  | _ => s

/-- A run: the events of a schedule, one after the other. -/
def Sys.run (s : Sys) (evs : List Event) : Sys :=
  evs.foldl Sys.step s

/-- The channel operations among a list of instructions. -/
def chanOps (tr : List Instr) : List Instr :=
  tr.filter fun i =>
    match i with
    | .send _ _ => true
    | .close _ => true
    | _ => false

/-- The goroutine has run all its instructions and has not failed. -/
def Sys.completed (s : Sys) : Prop :=
  s.thread.prog = [] ∧ s.thread.status = .running

instance (s : Sys) : Decidable s.completed := by
  unfold Sys.completed; infer_instance

/-- All the sends of a list of values on one channel by one goroutine, in order:
the first send that does not complete decides the outcome. -/
def Store.sendAll (w : Store) (c : Ref) : List Val → Outcome Store
  | [] => .ok w
  | v :: vs =>
    match w.send c v with
    | .ok w1 => Store.sendAll w1 c vs
    | .blocked => .blocked
    | .panicked => .panicked

/-! ## Connecting to the database -/

/-- What the database driver does on one pass of the retry loop: `sql.Open` fails
with an error, or returns a handle on which `Ping` returns `ping` (`none` is a nil
error). -/
inductive Attempt
  | openErr (err : String)
  | opened (db : Nat) (ping : Option String)
  deriving DecidableEq, Repr

/-- The calls `ConnectToDB` makes. -/
inductive DBEffect
  | getenv (key : String)
  | sqlOpen (driverName : String) (attempt : Nat)
  | ping (db : Nat)
  | println (msg : String)
  | sleep (seconds : Nat)
  deriving DecidableEq, Repr

/-- The two results of `ConnectToDB`, and the calls it made. -/
structure Dial where
  db : Ref
  err : Option String
  effects : List DBEffect
  deriving DecidableEq, Repr

/-- The body of `for i := 1; i <= counts; i++`, over the values `i` still to come,
and the `return` after the loop. -/
def ConnectToDB.loop (driver : Nat → Attempt) : List Nat → List DBEffect → Dial
  | [], tr => { db := none, err := some "cannot connect to database", effects := tr }
  | i :: more, tr =>
    match driver i with
    | .opened db ping =>
      match ping with
      | some e =>
        { db := none, err := some e, effects := tr ++ [.sqlOpen "pgx" i, .ping db] }
      | none =>
        { db := some db, err := none,
          effects := tr ++ [.sqlOpen "pgx" i, .ping db, .println "connect to database"] }
    | .openErr e =>
      ConnectToDB.loop driver more
        (tr ++ [.sqlOpen "pgx" i, .println ("postgres not yet ready... " ++ e), .sleep 1])

/-- Function `ConnectToDB() (*sql.DB, error)`; `driver i` is what the driver does
on the pass with loop variable `i`. -/
def ConnectToDB (driver : Nat → Attempt) : Dial :=
  let counts := 10
  ConnectToDB.loop driver (List.range' 1 counts) [.getenv "DSN"]

/-! ## main and serve -/

/-- Constant `webPort`. -/
def webPort : String := "8000"

/-- What the collaborators outside these two files supply to `main`: the database
driver, the addresses of the session manager and of the two loggers, the value
`data.New` builds, and the error `ListenAndServe` returns (`none` while it keeps
serving). -/
structure Host where
  driver : Nat → Attempt
  session : Nat
  infoLog : Nat
  errLog : Nat
  dataNew : Ref → Nat
  serveErr : Option String

/-- The two functions `main` starts with a `go` statement. -/
inductive Task
  | listenForMail
  | listenForShutdown
  deriving DecidableEq, Repr

/-- The steps of `main` and `serve`. -/
inductive MainEffect
  /-- Call `ConnectToDB()`, with the calls it made. -/
  | connectToDB (effects : List DBEffect)
  /-- Call `log.Fatal(err)` or `logger.Fatal(err)`: print, then `os.Exit(1)`. -/
  | fatal (logger : Ref) (err : String)
  /-- Call `initSession()`. -/
  | initSession
  /-- Call `log.New(os.Stdout, tag, flags)`. -/
  | logNew (tag : String)
  /-- Statement `wg := sync.WaitGroup{}`. -/
  | newWaitGroup (wg : Ref)
  /-- Call `data.New(db)`. -/
  | dataNew (db : Ref)
  /-- Statement `app.Mailer = app.createMail()`. -/
  | setMailer (m : Mail)
  /-- Statement `go app.task()`. -/
  | go (task : Task) (app : Config)
  /-- Call `app.routes()`. -/
  | routes
  /-- Call `logger.Printf(...)`. -/
  | printf (logger : Ref) (msg : String)
  /-- Call `srv.ListenAndServe()` on the given address, in the foreground. -/
  | listenAndServe (addr : String)
  deriving DecidableEq, Repr

/-- Method `(app *Config) serve()`. -/
def serve (app : Config) (host : Host) : List MainEffect :=
  [ .routes,
    .printf app.InfoLog ("starting server on " ++ webPort),
    .listenAndServe (":" ++ webPort) ]
  ++ match host.serveErr with
     | some err => [ .fatal app.ErrorLog err ]
     | none => []

/-- Function `main()`: the steps it takes and the store it leaves. -/
def main (host : Host) (w : Store) : List MainEffect × Store :=
  let dial := ConnectToDB host.driver
  match dial.err with
  | some err => ([ .connectToDB dial.effects, .fatal none err ], w)
  | none =>
    let session : Ref := some host.session
    let infoLog : Ref := some host.infoLog
    let errLog : Ref := some host.errLog
    let (wg, w1) := w.newWaitGroup
    let app : Config :=
      { Session := session
        DB := dial.db
        Wait := wg
        InfoLog := infoLog
        ErrorLog := errLog
        Models := host.dataNew dial.db
        Mailer := Mail.zero }
    let (m, app1, w2) := createMail app w1
    let app2 : Config := { app1 with Mailer := m }
    ( [ .connectToDB dial.effects,
        .initSession,
        .logNew "INFO\t",
        .logNew "Error\t",
        .newWaitGroup wg,
        .dataNew dial.db,
        .setMailer m,
        .go .listenForMail app2,
        .go .listenForShutdown app2 ]
      ++ serve app2 host,
      w2 )

/-- The `go` statements among the steps of `main`. -/
def started (tr : List MainEffect) : List Task :=
  tr.filterMap fun e =>
    match e with
    | .go t _ => some t
    | _ => none

/-! ## Predicates over steps and runs -/

/-- The status of the goroutine once instruction `i` has completed. -/
def statusAfter (i : Instr) : Status :=
  match i with
  | .exit code => .exited code
  | _ => .running

/-- What the store went through when instruction `i` completed. -/
def Executed (i : Instr) (w w1 : Store) : Prop :=
  match i with
  | .println logger _ => logger ≠ none ∧ w1 = w
  | .wgWait g => w.wgWait g = .ok w ∧ w1 = w
  | .send c v => w.send c v = .ok w1
  | .close c => w.close c = .ok w1
  | _ => w1 = w

/-- What an event of another goroutine does to the store. -/
def Moved (e : Event) (w w1 : Store) : Prop :=
  w1 = w ∨
  match e with
  | .wgAdd g delta => w.wgAdd g delta = .ok w1
  | .wgDone g => w.wgDone g = .ok w1
  | .recv c => w1 = w.recv c
  | .send c v => w.send (some c) v = .ok w1
  | _ => False

/-- How an instruction came to complete: in a scheduling slot of the goroutine, or,
for `<-quit`, by a relayed signal handed over to the waiting goroutine. -/
def Fired (e : Event) (i : Instr) (s s1 : Sys) : Prop :=
  (e = .tick ∧ Executed i s.world s1.world ∧ s1.thread.status = statusAfter i)
  ∨ (∃ sg sigs, e = .signal sg ∧ i = .recvQuit ∧ s.thread.relay = some sigs
      ∧ relays sigs sg = true ∧ s1.world = s.world ∧ s1.thread.status = .running)

/-- From `w` to `w1` every channel is still there, with the capacity it was made
with, and closed if it was closed. -/
def Store.Grows (w w1 : Store) : Prop :=
  ∀ (a : Nat) (ch : Chan), w.chans[a]? = some ch →
    ∃ ch1 : Chan, w1.chans[a]? = some ch1 ∧ ch1.cap = ch.cap
      ∧ (ch.closed = true → ch1.closed = true)

/-- Every channel whose `close` is in the trace is closed in the store, and no
`close` is in the trace twice. -/
def ClosesSound (s : Sys) : Prop :=
  (∀ c, Instr.close c ∈ s.thread.trace → ∃ ch, s.world.chan? c = some ch ∧ ch.closed = true)
  ∧ ∀ c, s.thread.trace.count (Instr.close c) ≤ 1

/-- The channel at `d` is unbuffered and no receiver is parked on it. -/
def Store.Unready (w : Store) (d : Nat) : Prop :=
  ∃ ch : Chan, w.chans[d]? = some ch ∧ ch.cap = 0 ∧ ch.recvq = 0

/-- The goroutine of `listenForShutdown` has not received a signal yet: it is before
`make`, between `make` and `signal.Notify`, or at `<-quit` with an empty unbuffered
`quit` on which only SIGINT and SIGTERM are relayed. -/
def AwaitingSignal (app : Config) (s : Sys) : Prop :=
  s.thread.trace ++ s.thread.prog = listenForShutdown app
  ∧ ((s.thread.trace = [] ∧ s.thread.quit = none ∧ s.thread.relay = none)
    ∨ (s.thread.trace = [.makeQuit] ∧ s.thread.quit = some { cap := 0, pending := [] }
        ∧ s.thread.relay = none)
    ∨ (s.thread.trace = [.makeQuit, .notifyQuit [.SIGINT, .SIGTERM]]
        ∧ s.thread.quit = some { cap := 0, pending := [] }
        ∧ s.thread.relay = some [.SIGINT, .SIGTERM]))

/-- A goroutine that has exited did so by the `os.Exit` at the end of its trace. -/
def ExitLast (s : Sys) : Prop :=
  ∀ code, s.thread.status = .exited code → ∃ pre, s.thread.trace = pre ++ [.exit code]

/-! ## What the statements compare the code with -/

/-- The channel operations the spec lists for `shutdown`, in its order: the done
signal, then the three closes. -/
def shutdownOps (app : Config) : List Instr :=
  [ .send app.Mailer.DoneChan (.bool true),
    .close app.Mailer.MailerChan,
    .close app.Mailer.ErrorChan,
    .close app.Mailer.DoneChan ]

/-- The calls to `sql.Open` among the calls of `ConnectToDB`. -/
def isOpen : DBEffect → Bool
  | .sqlOpen _ _ => true
  | _ => false

/-- The calls of the passes over `js` when `sql.Open` fails on them: for each, the
open, the log line with the error, and the sleep of one second. -/
def failedPasses (driver : Nat → Attempt) : List Nat → List DBEffect
  | [] => []
  | j :: js =>
    (match driver j with
      | .openErr e =>
        [.sqlOpen "pgx" j, .println ("postgres not yet ready... " ++ e), .sleep 1]
      | .opened _ _ => [])
    ++ failedPasses driver js

/-- The calls of the pass on which `sql.Open` returns a handle. -/
def openedPass (k db : Nat) (ping : Option String) : List DBEffect :=
  match ping with
  | none => [.sqlOpen "pgx" k, .ping db, .println "connect to database"]
  | some _ => [.sqlOpen "pgx" k, .ping db]

/-- The handle `ConnectToDB` returns on the pass on which `sql.Open` returned `db`:
the handle if the ping succeeded, nil if it failed. -/
def openedHandle (db : Nat) (ping : Option String) : Ref :=
  match ping with
  | none => some db
  | some _ => none

/-- The steps of `main` that come after the connection to the database. -/
def isLater : MainEffect → Bool
  | .connectToDB _ => false
  | .fatal _ _ => false
  | _ => true

/-- The application `main` sets up before the Mailer is made: the session manager,
the handle, the loggers, the new wait group, the models. -/
def appBeforeMail (host : Host) (w : Store) : Config :=
  { Session := some host.session
    DB := (ConnectToDB host.driver).db
    Wait := w.newWaitGroup.1
    InfoLog := some host.infoLog
    ErrorLog := some host.errLog
    Models := host.dataNew (ConnectToDB host.driver).db
    Mailer := Mail.zero }

/-- The application once `app.Mailer = app.createMail()` has run. -/
def appWithMail (host : Host) (w : Store) : Config :=
  { appBeforeMail host w with
    Mailer := (createMail (appBeforeMail host w) w.newWaitGroup.2).1 }

/-! ## Concrete inputs -/

/-- A configuration as `main` builds it, before the Mailer is set. -/
def demoConfig : Config :=
  { Session := some 0, DB := some 0, InfoLog := some 1, ErrorLog := some 2,
    Wait := some 0, Models := 0, Mailer := Mail.zero }

/-- A store with one wait group on which two tasks are in flight. -/
def demoStore : Store := { chans := [], wgs := [2] }

/-- The application once `app.Mailer = app.createMail()` has run. -/
def demoApp : Config := { demoConfig with Mailer := (createMail demoConfig demoStore).1 }

/-- The store once `createMail` has run. -/
def demoWorld : Store := (createMail demoConfig demoStore).2.2

/-- A message to enqueue. -/
def demoMessage : Message :=
  { recipient := "me@here.com", subject := "Test email", body := "Hello, world!",
    attachments := [], fromAddress := "", fromName := "" }

/-- A schedule in which one of the two tasks in flight finishes and the other does
not: `shutdown` is scheduled again and again, and the consumer loop is ready to
receive the done signal. -/
def stuckSchedule : List Event :=
  [.tick, .tick, .tick, .wgDone 0, .tick, .recv 2, .tick]

/-- A schedule in which both tasks in flight finish and the consumer loop arrives at
its receive on the done channel (address 2) after `shutdown` has reached its send. -/
def drainSchedule : List Event :=
  [.tick, .tick, .wgDone 0, .wgDone 0, .tick, .tick, .recv 2, .tick, .tick, .tick, .tick,
   .tick]

/-- A schedule in which both tasks in flight finish but no receiver ever arrives at
the done channel (address 2): another goroutine even tries to send on it. -/
def noReceiverSchedule : List Event :=
  [.wgDone 0, .wgDone 0, .tick, .tick, .tick, .send 2 (.bool true), .recv 1, .tick, .tick]

/-- A schedule for `listenForShutdown`: the process is told to terminate once the
goroutine waits in `<-quit`, the two tasks in flight finish, and the consumer loop
takes the done signal. -/
def terminateSchedule : List Event :=
  [.tick, .tick, .tick, .signal .SIGTERM, .tick, .tick, .wgDone 0, .wgDone 0, .recv 2,
   .tick, .tick, .tick, .tick, .tick, .tick, .tick]

/-- A host whose database never opens. -/
def downHost : Host :=
  { driver := fun _ => .openErr "connection refused"
    session := 0, infoLog := 1, errLog := 2
    dataNew := fun _ => 0
    serveErr := none }

/-- A host whose database opens on the third pass and whose server keeps serving. -/
def upHost : Host :=
  { driver := fun i => if i < 3 then .openErr "connection refused" else .opened 7 none
    session := 0, infoLog := 1, errLog := 2
    dataNew := fun _ => 0
    serveErr := none }

/-! # Theorems -/

/-! ## Runs: general facts -/

theorem Sys.run_nil (s : Sys) : s.run [] = s := rfl

theorem Sys.run_cons (s : Sys) (e : Event) (evs : List Event) :
    s.run (e :: evs) = (s.step e).run evs := rfl

theorem Sys.run_snoc (s : Sys) (evs : List Event) (e : Event) :
    s.run (evs ++ [e]) = (s.run evs).step e := by
  simp [Sys.run, List.foldl_append]

theorem Sys.settle_trace (s : Sys) (o : Outcome Store) :
    (s.settle o).thread.trace = s.thread.trace := by
  cases o <;> rfl

theorem Sys.settle_prog (s : Sys) (o : Outcome Store) :
    (s.settle o).thread.prog = s.thread.prog := by
  cases o <;> rfl

theorem Sys.settle_quit (s : Sys) (o : Outcome Store) :
    (s.settle o).thread.quit = s.thread.quit := by
  cases o <;> rfl

theorem Sys.settle_relay (s : Sys) (o : Outcome Store) :
    (s.settle o).thread.relay = s.thread.relay := by
  cases o <;> rfl

/-- A scheduling slot moves at most the head instruction to the trace. -/
theorem Sys.tick_trace_prog (s : Sys) :
    s.tick.thread.trace ++ s.tick.thread.prog = s.thread.trace ++ s.thread.prog := by
  unfold Sys.tick
  split
  · split <;> (repeat' split) <;> simp_all [Thread.advance]
  · rfl

theorem Sys.signal_trace_prog (s : Sys) (sg : Signal) :
    (s.signal sg).thread.trace ++ (s.signal sg).thread.prog
      = s.thread.trace ++ s.thread.prog := by
  unfold Sys.signal
  repeat' split
  all_goals simp_all [Thread.advance]

theorem Sys.step_trace_prog (s : Sys) (e : Event) :
    (s.step e).thread.trace ++ (s.step e).thread.prog = s.thread.trace ++ s.thread.prog := by
  unfold Sys.step
  split
  · cases e <;> simp only [Sys.tick_trace_prog, Sys.signal_trace_prog]
    all_goals rw [Sys.settle_trace, Sys.settle_prog]
  · rfl

/-- In every run, what has run followed by what is left is the program. -/
theorem Sys.run_trace_prog (s : Sys) (evs : List Event) :
    (s.run evs).thread.trace ++ (s.run evs).thread.prog = s.thread.trace ++ s.thread.prog := by
  induction evs generalizing s with
  | nil => rfl
  | cons e evs ih => rw [Sys.run_cons, ih, Sys.step_trace_prog]

theorem Sys.boot_run_trace_prog (w : Store) (p : List Instr) (evs : List Event) :
    ((Sys.boot w p).run evs).thread.trace ++ ((Sys.boot w p).run evs).thread.prog = p := by
  rw [Sys.run_trace_prog]; rfl

theorem Store.wgWait_ok {w w1 : Store} {g : Ref} (h : w.wgWait g = .ok w1) : w1 = w := by
  unfold Store.wgWait at h
  split at h
  · cases h
  · split at h
    · cases h
    · split at h
      · cases h; rfl
      · cases h

/-- The three ways a scheduling slot ends: nothing changes (blocked, or the
goroutine has ended), the goroutine panics, or the head instruction completes. -/
theorem Sys.tick_cases (s : Sys) :
    s.tick = s
    ∨ (s.tick.world = s.world ∧ s.tick.thread.trace = s.thread.trace
        ∧ s.tick.thread.prog = s.thread.prog ∧ s.tick.thread.status = .panicked)
    ∨ (∃ i rest, s.thread.status = .running ∧ s.thread.prog = i :: rest
        ∧ s.tick.thread.trace = s.thread.trace ++ [i] ∧ s.tick.thread.prog = rest
        ∧ Executed i s.world s.tick.world ∧ s.tick.thread.status = statusAfter i) := by
  obtain ⟨w, ⟨prog, trace, quit, relay, status⟩⟩ := s
  cases status with
  | running =>
    cases prog with
    | nil => exact Or.inl rfl
    | cons i rest =>
      cases i with
      | println logger msg =>
        cases logger with
        | none => exact Or.inr (Or.inl ⟨rfl, rfl, rfl, rfl⟩)
        | some a =>
          exact Or.inr (Or.inr ⟨_, _, rfl, rfl, rfl, rfl, by simp [Executed, Sys.tick], rfl⟩)
      | wgWait g =>
        cases h : w.wgWait g with
        | ok w1 =>
          have hw := Store.wgWait_ok h
          subst hw
          refine Or.inr (Or.inr ⟨_, _, rfl, rfl, ?_, ?_, ?_, ?_⟩) <;>
            simp [Sys.tick, h, Thread.advance, Executed, statusAfter]
        | blocked => left; simp [Sys.tick, h]
        | panicked => right; left; simp [Sys.tick, h]
      | send c v =>
        cases h : w.send c v with
        | ok w1 =>
          refine Or.inr (Or.inr ⟨_, _, rfl, rfl, ?_, ?_, ?_, ?_⟩) <;>
            simp [Sys.tick, h, Thread.advance, Executed, statusAfter]
        | blocked => left; simp [Sys.tick, h]
        | panicked => right; left; simp [Sys.tick, h]
      | close c =>
        cases h : w.close c with
        | ok w1 =>
          refine Or.inr (Or.inr ⟨_, _, rfl, rfl, ?_, ?_, ?_, ?_⟩) <;>
            simp [Sys.tick, h, Thread.advance, Executed, statusAfter]
        | blocked => left; simp [Sys.tick, h]
        | panicked => right; left; simp [Sys.tick, h]
      | makeQuit =>
        exact Or.inr (Or.inr ⟨_, _, rfl, rfl, rfl, rfl, by simp [Executed, Sys.tick], rfl⟩)
      | notifyQuit sigs =>
        cases quit with
        | none => exact Or.inr (Or.inl ⟨rfl, rfl, rfl, rfl⟩)
        | some q =>
          exact Or.inr (Or.inr ⟨_, _, rfl, rfl, rfl, rfl, by simp [Executed, Sys.tick], rfl⟩)
      | recvQuit =>
        cases quit with
        | none => exact Or.inl rfl
        | some q =>
          obtain ⟨cap, pending⟩ := q
          cases pending with
          | nil => exact Or.inl rfl
          | cons sg more =>
            exact Or.inr (Or.inr ⟨_, _, rfl, rfl, rfl, rfl, by simp [Executed, Sys.tick], rfl⟩)
      | exit code =>
        exact Or.inr (Or.inr ⟨_, _, rfl, rfl, rfl, rfl, by simp [Executed, Sys.tick], rfl⟩)
  | panicked => exact Or.inl rfl
  | exited code => exact Or.inl rfl
  | killed sg => exact Or.inl rfl

theorem Sys.settle_cases (s : Sys) (o : Outcome Store) {e : Event}
    (hs : s.thread.status = .running)
    (hm : ∀ w1, o = .ok w1 → Moved e s.world w1) :
    (s.settle o).thread.trace = s.thread.trace ∧ (s.settle o).thread.prog = s.thread.prog
      ∧ Moved e s.world (s.settle o).world
      ∧ ∀ code, (s.settle o).thread.status = .exited code → s.thread.status = .exited code := by
  cases o with
  | ok w1 =>
    exact ⟨rfl, rfl, hm w1 rfl, fun code h => by simp [Sys.settle, hs] at h⟩
  | blocked => exact ⟨rfl, rfl, Or.inl rfl, fun _ h => h⟩
  | panicked => exact ⟨rfl, rfl, Or.inl rfl, fun code h => by simp [Sys.settle] at h⟩

/-- The two kinds of step: the trace stays and the store moves by an event of
another goroutine, or the head instruction completes. -/
theorem Sys.step_cases (s : Sys) (e : Event) :
    ((s.step e).thread.trace = s.thread.trace ∧ (s.step e).thread.prog = s.thread.prog
        ∧ Moved e s.world (s.step e).world
        ∧ ∀ code, (s.step e).thread.status = .exited code → s.thread.status = .exited code)
    ∨ (∃ i rest, s.thread.status = .running ∧ s.thread.prog = i :: rest
        ∧ (s.step e).thread.trace = s.thread.trace ++ [i] ∧ (s.step e).thread.prog = rest
        ∧ Fired e i s (s.step e)) := by
  by_cases hs : s.thread.status = .running
  · cases e with
    | tick =>
      have hstep : s.step .tick = s.tick := by simp [Sys.step, hs]
      rw [hstep]
      rcases s.tick_cases with h | ⟨h1, h2, h3, h4⟩ | ⟨i, rest, h1, h2, h3, h4, h5, h6⟩
      · rw [h]; exact Or.inl ⟨rfl, rfl, Or.inl rfl, fun _ h => h⟩
      · exact Or.inl ⟨h2, h3, Or.inl h1, fun code h => by rw [h4] at h; cases h⟩
      · exact Or.inr ⟨i, rest, h1, h2, h3, h4, Or.inl ⟨rfl, h5, h6⟩⟩
    | wgAdd g delta =>
      have hstep : s.step (.wgAdd g delta) = s.settle (s.world.wgAdd g delta) := by
        simp [Sys.step, hs]
      rw [hstep]
      exact Or.inl (s.settle_cases _ hs (fun w1 h => Or.inr h))
    | wgDone g =>
      have hstep : s.step (.wgDone g) = s.settle (s.world.wgDone g) := by
        simp [Sys.step, hs]
      rw [hstep]
      exact Or.inl (s.settle_cases _ hs (fun w1 h => Or.inr h))
    | recv c =>
      exact Or.inl ⟨by simp [Sys.step, hs], by simp [Sys.step, hs],
        Or.inr (by simp [Sys.step, hs]), fun code h => by simp [Sys.step, hs] at h⟩
    | send c v =>
      have hstep : s.step (.send c v) = s.settle (s.world.send (some c) v) := by
        simp [Sys.step, hs]
      rw [hstep]
      exact Or.inl (s.settle_cases _ hs (fun w1 h => Or.inr h))
    | signal sg =>
      have hstep : s.step (.signal sg) = s.signal sg := by simp [Sys.step, hs]
      rw [hstep]
      obtain ⟨w, ⟨prog, trace, quit, relay, status⟩⟩ := s
      simp only at hs
      subst hs
      rcases relay with _ | sigs <;> rcases quit with _ | ⟨cap, pending⟩
      · left; simp [Sys.signal, Moved]
      · left; simp [Sys.signal, Moved]
      · left; simp [Sys.signal, Moved]
      · by_cases hr : relays sigs sg = true
        · rcases prog with _ | ⟨i, rest⟩
          · left
            simp only [Sys.signal, hr, if_true]
            split <;> simp [Moved]
          · by_cases hi : i = .recvQuit
            · subst hi
              rcases pending with _ | ⟨p, more⟩
              · right
                exact ⟨.recvQuit, rest, rfl, rfl, by simp [Sys.signal, hr, Thread.advance],
                  by simp [Sys.signal, hr, Thread.advance],
                  Or.inr ⟨sg, sigs, rfl, rfl, rfl, hr, by simp [Sys.signal, hr, Thread.advance],
                    by simp [Sys.signal, hr, Thread.advance]⟩⟩
              · left
                simp only [Sys.signal, hr, if_true, List.isEmpty_cons, Bool.false_eq_true,
                  if_false]
                split <;> simp [Moved]
            · left
              cases i <;> first
                | exact absurd rfl hi
                | (simp only [Sys.signal, hr, if_true]; split <;> simp [Moved])
        · left; simp [Sys.signal, hr, Moved]
  · have hstep : s.step e = s := by
      unfold Sys.step
      split
      · contradiction
      · rfl
    rw [hstep]
    exact Or.inl ⟨rfl, rfl, Or.inl rfl, fun _ h => h⟩

/-! ## shutdown: the counter barrier -/

theorem append_eq_take_drop {α : Type} {t p l : List α} (h : t ++ p = l) :
    ∃ k, k = t.length ∧ k ≤ l.length ∧ t = l.take k ∧ p = l.drop k := by
  refine ⟨t.length, rfl, ?_, ?_, ?_⟩ <;> subst h <;> simp

theorem Store.wgWait_ok_counter {w w1 : Store} {g : Ref} (h : w.wgWait g = .ok w1) :
    w.counter? g = some 0 := by
  unfold Store.wgWait at h
  unfold Store.counter?
  split at h
  · cases h
  · split at h
    · cases h
    · rename_i n hn
      split at h
      · simp_all
      · cases h

theorem shutdown_length (app : Config) : (shutdown app).length = 7 := rfl

/-- While the counter is not zero a step leaves `shutdown` at or before its `Wait`. -/
theorem shutdown_barrier_step (app : Config) (s : Sys) (e : Event)
    (hp : s.thread.trace ++ s.thread.prog = shutdown app)
    (hl : s.thread.trace.length ≤ 1)
    (hc : s.world.counter? app.Wait ≠ some 0) :
    (s.step e).thread.trace.length ≤ 1 := by
  rcases s.step_cases e with ⟨h1, _⟩ | ⟨i, rest, _, hprog, htr, _, hf⟩
  · rw [h1]; exact hl
  · rw [htr]
    obtain ⟨k, hlen, hk, ht, hpk⟩ := append_eq_take_drop hp
    have hk1 : k ≤ 1 := by omega
    interval_cases k
    · simp [← hlen]
    · exfalso
      rw [hprog] at hpk
      simp [shutdown] at hpk
      obtain ⟨hi, _⟩ := hpk
      subst hi
      rcases hf with ⟨_, hex, _⟩ | ⟨sg, sigs, _, hi, _⟩
      · exact hc (Store.wgWait_ok_counter hex.1)
      · cases hi

/-- A run along which the counter is never zero leaves `shutdown` at or before its
`Wait`. -/
theorem shutdown_barrier_run (app : Config) (w : Store) (evs : List Event)
    (hc : ∀ k, k ≤ evs.length →
      ((Sys.boot w (shutdown app)).run (evs.take k)).world.counter? app.Wait ≠ some 0) :
    ((Sys.boot w (shutdown app)).run evs).thread.trace.length ≤ 1 := by
  induction evs using List.reverseRecOn with
  | nil => simp [Sys.run_nil, Sys.boot]
  | append_singleton evs e ih =>
    rw [Sys.run_snoc]
    apply shutdown_barrier_step app
    · exact Sys.boot_run_trace_prog w (shutdown app) evs
    · apply ih
      intro k hk
      have := hc k (by simp; omega)
      rwa [List.take_append_of_le_length hk] at this
    · have := hc evs.length (by simp)
      simpa using this

/-- C1: in `shutdown` the `Wait` on `app.Wait` stands before the send on `DoneChan`
and before the three closes; in every run a channel operation of `shutdown` has
happened only after its `Wait` returned; and along a run in which the counter is
never zero, `shutdown` sends nothing and closes nothing. -/
theorem shutdown_waits_for_counter (app : Config) (w : Store) (evs : List Event) :
    (∃ pre post, shutdown app = pre ++ .wgWait app.Wait :: post
        ∧ chanOps pre = [] ∧ chanOps post = shutdownOps app)
    ∧ (∀ i, i ∈ chanOps ((Sys.boot w (shutdown app)).run evs).thread.trace →
        ∃ pre post, ((Sys.boot w (shutdown app)).run evs).thread.trace
            = pre ++ .wgWait app.Wait :: post
          ∧ chanOps pre = [] ∧ i ∈ post)
    ∧ ((∀ k, k ≤ evs.length →
          ((Sys.boot w (shutdown app)).run (evs.take k)).world.counter? app.Wait ≠ some 0) →
        chanOps ((Sys.boot w (shutdown app)).run evs).thread.trace = []) := by
  refine ⟨⟨[.println app.InfoLog "run cleanup task"], _, rfl, rfl, rfl⟩, ?_, ?_⟩
  · intro i hi
    obtain ⟨k, hlen, hk, ht, -⟩ :=
      append_eq_take_drop (Sys.boot_run_trace_prog w (shutdown app) evs)
    rw [ht] at hi ⊢
    rw [shutdown_length] at hk
    refine ⟨[.println app.InfoLog "run cleanup task"], ((shutdown app).take k).drop 2, ?_, rfl, ?_⟩
    · interval_cases k <;> simp [shutdown, chanOps] at hi ⊢
    · interval_cases k <;> simp [shutdown, chanOps] at hi ⊢ <;> tauto
  · intro hc
    have hl := shutdown_barrier_run app w evs hc
    obtain ⟨k, hlen, hk, ht, -⟩ :=
      append_eq_take_drop (Sys.boot_run_trace_prog w (shutdown app) evs)
    rw [ht]
    have hk1 : k ≤ 1 := by omega
    interval_cases k <;> simp [shutdown, chanOps]

/-- C1 at a concrete run: one of two tasks in flight never finishes, and `shutdown`
sends nothing and closes nothing however often it is scheduled. -/
theorem shutdown_waits_for_counter_witness :
    (∀ k, k ≤ stuckSchedule.length →
      ((Sys.boot demoWorld (shutdown demoApp)).run (stuckSchedule.take k)).world.counter?
        demoApp.Wait ≠ some 0)
    ∧ chanOps ((Sys.boot demoWorld (shutdown demoApp)).run stuckSchedule).thread.trace = [] :=
  ⟨by decide, (shutdown_waits_for_counter demoApp demoWorld stuckSchedule).2.2 (by decide)⟩

/-! ## Channels only move forward -/

theorem Store.Grows.refl (w : Store) : w.Grows w :=
  fun _ ch h => ⟨ch, h, rfl, id⟩

theorem Store.Grows.trans {w w1 w2 : Store} (h1 : w.Grows w1) (h2 : w1.Grows w2) :
    w.Grows w2 := by
  intro a ch h
  obtain ⟨ch1, e1, c1, k1⟩ := h1 a ch h
  obtain ⟨ch2, e2, c2, k2⟩ := h2 a ch1 e1
  exact ⟨ch2, e2, c2.trans c1, fun hc => k2 (k1 hc)⟩

theorem Store.grows_set (w : Store) (a : Nat) (ch ch1 : Chan) (wgs : List Nat)
    (h : w.chans[a]? = some ch) (hcap : ch1.cap = ch.cap)
    (hcl : ch.closed = true → ch1.closed = true) :
    w.Grows { chans := w.chans.set a ch1, wgs := wgs } := by
  intro b chb hb
  by_cases hab : a = b
  · subst hab
    rw [h] at hb
    cases hb
    have hlt : a < w.chans.length := by
      rcases List.getElem?_eq_some.mp h with ⟨hlt, _⟩
      exact hlt
    exact ⟨ch1, by simp [List.getElem?_set, hlt], hcap, hcl⟩
  · exact ⟨chb, by simp [List.getElem?_set, hab, hb], rfl, id⟩

theorem Store.send_grows {w w1 : Store} {c : Ref} {v : Val} (h : w.send c v = .ok w1) :
    w.Grows w1 := by
  cases c with
  | none => simp [Store.send] at h
  | some a =>
    cases hch : w.chans[a]? with
    | none => simp [Store.send, hch] at h
    | some ch =>
      simp only [Store.send, hch] at h
      split at h
      · cases h
      · split at h
        · cases h
          exact Store.grows_set w a ch { ch with recvq := ch.recvq - 1 } _ hch rfl id
        · split at h
          · cases h
            exact Store.grows_set w a ch { ch with buf := ch.buf ++ [v] } _ hch rfl id
          · cases h

theorem Store.close_grows {w w1 : Store} {c : Ref} (h : w.close c = .ok w1) :
    w.Grows w1 := by
  cases c with
  | none => simp [Store.close] at h
  | some a =>
    cases hch : w.chans[a]? with
    | none => simp [Store.close, hch] at h
    | some ch =>
      simp only [Store.close, hch] at h
      split at h
      · cases h
      · cases h
        exact Store.grows_set w a ch { ch with closed := true, recvq := 0 } _ hch rfl
          (fun _ => rfl)

/-- A completed `close(c)` found the channel open and leaves it closed. -/
theorem Store.close_ok {w w1 : Store} {c : Ref} (h : w.close c = .ok w1) :
    (∃ ch, w.chan? c = some ch ∧ ch.closed = false)
    ∧ (∃ ch1, w1.chan? c = some ch1 ∧ ch1.closed = true) := by
  cases c with
  | none => simp [Store.close] at h
  | some a =>
    cases hch : w.chans[a]? with
    | none => simp [Store.close, hch] at h
    | some ch =>
      simp only [Store.close, hch] at h
      split at h
      · cases h
      · rename_i hcl
        cases h
        have hlt : a < w.chans.length := by
          rcases List.getElem?_eq_some.mp hch with ⟨hlt, _⟩
          exact hlt
        refine ⟨⟨ch, hch, by simpa using hcl⟩,
          ⟨{ ch with closed := true, recvq := 0 }, ?_, rfl⟩⟩
        simp [Store.chan?, List.getElem?_set, hlt]

theorem Store.recv_grows (w : Store) (a : Nat) : w.Grows (w.recv a) := by
  cases hch : w.chans[a]? with
  | none => simp only [Store.recv, hch]; exact Store.Grows.refl w
  | some ch =>
    simp only [Store.recv, hch]
    split
    · rename_i v rest _
      exact Store.grows_set w a ch { ch with buf := rest } _ hch rfl id
    · split
      · exact Store.Grows.refl w
      · exact Store.grows_set w a ch { ch with recvq := ch.recvq + 1 } _ hch rfl id

theorem Store.wgAdd_chans {w w1 : Store} {g delta : Nat} (h : w.wgAdd g delta = .ok w1) :
    w1.chans = w.chans := by
  unfold Store.wgAdd at h
  split at h
  · cases h
  · cases h; rfl

theorem Store.wgDone_chans {w w1 : Store} {g : Nat} (h : w.wgDone g = .ok w1) :
    w1.chans = w.chans := by
  unfold Store.wgDone at h
  split at h
  · cases h
  · split at h
    · cases h
    · cases h; rfl

theorem Store.grows_of_chans_eq {w w1 : Store} (h : w1.chans = w.chans) : w.Grows w1 := by
  intro a ch hch
  exact ⟨ch, by rw [h]; exact hch, rfl, id⟩

theorem Moved.moved_grows {e : Event} {w w1 : Store} (h : Moved e w w1) : w.Grows w1 := by
  rcases h with h | h
  · subst h; exact Store.Grows.refl _
  · cases e <;> simp only at h
    · exact Store.grows_of_chans_eq (Store.wgAdd_chans h)
    · exact Store.grows_of_chans_eq (Store.wgDone_chans h)
    · subst h; exact Store.recv_grows _ _
    · exact Store.send_grows h

theorem Executed.executed_grows {i : Instr} {w w1 : Store} (h : Executed i w w1) : w.Grows w1 := by
  cases i <;> simp only [Executed] at h
  · rw [h.2]; exact Store.Grows.refl w
  · rw [h.2]; exact Store.Grows.refl w
  · exact Store.send_grows h
  · exact Store.close_grows h
  all_goals (subst h; exact Store.Grows.refl _)

theorem Fired.fired_grows {e : Event} {i : Instr} {s s1 : Sys} (h : Fired e i s s1) :
    s.world.Grows s1.world := by
  rcases h with ⟨_, hex, _⟩ | ⟨sg, sigs, _, _, _, _, hw, _⟩
  · exact hex.executed_grows
  · rw [hw]; exact Store.Grows.refl _

/-- In every step, channels keep their capacity and closed channels stay closed. -/
theorem Sys.step_grows (s : Sys) (e : Event) : s.world.Grows (s.step e).world := by
  rcases s.step_cases e with ⟨_, _, hm, _⟩ | ⟨i, rest, _, _, _, _, hf⟩
  · exact hm.moved_grows
  · exact hf.fired_grows

theorem Sys.run_grows (s : Sys) (evs : List Event) : s.world.Grows (s.run evs).world := by
  induction evs generalizing s with
  | nil => exact Store.Grows.refl _
  | cons e evs ih => exact (s.step_grows e).trans (ih (s.step e))

/-! ## shutdown: the effects past the barrier -/

theorem Store.Grows.closed {w w1 : Store} (h : w.Grows w1) {c : Ref}
    (hc : ∃ ch, w.chan? c = some ch ∧ ch.closed = true) :
    ∃ ch1, w1.chan? c = some ch1 ∧ ch1.closed = true := by
  obtain ⟨ch, hch, hcl⟩ := hc
  cases c with
  | none => simp [Store.chan?] at hch
  | some a =>
    obtain ⟨ch1, h1, _, h3⟩ := h a ch hch
    exact ⟨ch1, h1, h3 hcl⟩

theorem ClosesSound.closes_step {s : Sys} (h : ClosesSound s) (e : Event) :
    ClosesSound (s.step e) := by
  obtain ⟨hK, hN⟩ := h
  rcases s.step_cases e with ⟨htr, _, hm, _⟩ | ⟨i, rest, _, _, htr, _, hf⟩
  · rw [ClosesSound, htr]
    exact ⟨fun c hc => hm.moved_grows.closed (hK c hc), hN⟩
  · rw [ClosesSound, htr]
    constructor
    · intro c hc
      rcases List.mem_append.mp hc with hc | hc
      · exact hf.fired_grows.closed (hK c hc)
      · have hi : i = .close c := by
          have := List.mem_singleton.mp hc
          exact this.symm
        subst hi
        rcases hf with ⟨_, hex, _⟩ | ⟨sg, sigs, _, hi, _⟩
        · exact (Store.close_ok hex).2
        · cases hi
    · intro c
      rw [List.count_append]
      by_cases hi : i = .close c
      · subst hi
        rcases hf with ⟨_, hex, _⟩ | ⟨sg, sigs, _, hi, _⟩
        · obtain ⟨ch, hch, hopen⟩ := (Store.close_ok hex).1
          have hnot : Instr.close c ∉ s.thread.trace := by
            intro hmem
            obtain ⟨ch1, hch1, hcl⟩ := hK c hmem
            rw [hch] at hch1
            cases hch1
            rw [hopen] at hcl
            cases hcl
          rw [List.count_eq_zero_of_not_mem hnot]
          simp
        · cases hi
      · have : List.count (Instr.close c) [i] = 0 := by
          apply List.count_eq_zero_of_not_mem
          simpa using fun h => hi h.symm
        have := hN c
        omega

theorem ClosesSound.closes_run {s : Sys} (h : ClosesSound s) (evs : List Event) :
    ClosesSound (s.run evs) := by
  induction evs generalizing s with
  | nil => exact h
  | cons e evs ih => exact ih (h.closes_step e)

theorem ClosesSound.closes_boot (w : Store) (p : List Instr) : ClosesSound (Sys.boot w p) := by
  constructor <;> simp [Sys.boot]

/-- C2: in every run of `shutdown` the channel operations done so far are an initial
part of: the send of `true` on `DoneChan`, the close of `MailerChan`, the close of
`ErrorChan`, the close of `DoneChan`; no channel is closed twice; no send follows
the close of its channel; and when `shutdown` has returned, the channel operations
are exactly these four, the send once and each of the three closes once. -/
theorem shutdown_effects_in_order (app : Config) (w : Store) (evs : List Event) :
    chanOps ((Sys.boot w (shutdown app)).run evs).thread.trace <+: shutdownOps app
    ∧ (∀ c, ((Sys.boot w (shutdown app)).run evs).thread.trace.count (Instr.close c) ≤ 1)
    ∧ (∀ pre post c v,
        ((Sys.boot w (shutdown app)).run evs).thread.trace = pre ++ Instr.send c v :: post →
        Instr.close c ∉ pre)
    ∧ (((Sys.boot w (shutdown app)).run evs).completed →
        chanOps ((Sys.boot w (shutdown app)).run evs).thread.trace = shutdownOps app
        ∧ (chanOps ((Sys.boot w (shutdown app)).run evs).thread.trace).count
            (Instr.send app.Mailer.DoneChan (.bool true)) = 1
        ∧ ∀ c ∈ [app.Mailer.MailerChan, app.Mailer.ErrorChan, app.Mailer.DoneChan],
            (chanOps ((Sys.boot w (shutdown app)).run evs).thread.trace).count
              (Instr.close c) = 1) := by
  have hp := Sys.boot_run_trace_prog w (shutdown app) evs
  have hcs := (ClosesSound.closes_boot w (shutdown app)).closes_run evs
  generalize (Sys.boot w (shutdown app)).run evs = s at hp hcs
  refine ⟨?_, hcs.2, ?_, ?_⟩
  · have : s.thread.trace <+: shutdown app := ⟨_, hp⟩
    exact this.filter _
  · intro pre post c v htr
    rw [htr, List.append_assoc] at hp
    obtain ⟨k, hlen, hk, ht, hd⟩ := append_eq_take_drop hp
    rw [shutdown_length] at hk
    rw [ht]
    interval_cases k <;> simp [shutdown] at hd ⊢
  · rintro ⟨hprog, -⟩
    rw [hprog, List.append_nil] at hp
    have hN := hcs.2
    rw [hp] at hN ⊢
    have hM := hN app.Mailer.MailerChan
    have hE := hN app.Mailer.ErrorChan
    have hD := hN app.Mailer.DoneChan
    simp [shutdown, List.count_cons] at hM hE hD
    obtain ⟨hDM, hEM⟩ := hM
    have hDE : ¬app.Mailer.DoneChan = app.Mailer.ErrorChan := by
      intro h
      simp [h] at hE
      omega
    have hMD : ¬app.Mailer.MailerChan = app.Mailer.DoneChan := fun h => hDM h.symm
    have hME : ¬app.Mailer.MailerChan = app.Mailer.ErrorChan := fun h => hEM h.symm
    have hED : ¬app.Mailer.ErrorChan = app.Mailer.DoneChan := fun h => hDE h.symm
    refine ⟨rfl, ?_, ?_⟩
    · simp [chanOps, shutdown, List.count_cons]
    · intro c hc
      simp only [List.mem_cons, List.mem_singleton, List.not_mem_nil, or_false] at hc
      rcases hc with rfl | rfl | rfl <;>
        simp [chanOps, shutdown, List.count_cons, hDM, hEM, hDE, hMD, hME, hED]

/-- C2 at a concrete run: both tasks finish, the consumer loop takes the done signal,
`shutdown` returns, and its channel operations are the send and the three closes. -/
theorem shutdown_effects_in_order_witness :
    ((Sys.boot demoWorld (shutdown demoApp)).run drainSchedule).completed
    ∧ chanOps ((Sys.boot demoWorld (shutdown demoApp)).run drainSchedule).thread.trace
        = shutdownOps demoApp :=
  ⟨by decide,
   ((shutdown_effects_in_order demoApp demoWorld drainSchedule).2.2.2 (by decide)).1⟩

/-! ## shutdown: the done signal is a handoff -/

/-- On an unbuffered channel a send completes only by handing the value to a parked
receiver, which it releases. -/
theorem Store.send_unbuffered {w w1 : Store} {d : Nat} {ch : Chan} {v : Val}
    (hch : w.chans[d]? = some ch) (hcap : ch.cap = 0) (h : w.send (some d) v = .ok w1) :
    0 < ch.recvq ∧ w1.chans[d]? = some { ch with recvq := ch.recvq - 1 } := by
  have hlt : d < w.chans.length := by
    rcases List.getElem?_eq_some.mp hch with ⟨hlt, _⟩
    exact hlt
  simp only [Store.send, hch] at h
  split at h
  · cases h
  · split at h
    · rename_i hq
      cases h
      exact ⟨hq, by simp [List.getElem?_set, hlt]⟩
    · split at h
      · rename_i hb
        rw [hcap] at hb
        cases hb
      · cases h

theorem Store.Unready.send_not_ok {w : Store} {d : Nat} (h : w.Unready d) (v : Val)
    (w1 : Store) : w.send (some d) v ≠ .ok w1 := by
  obtain ⟨ch, hch, hcap, hq⟩ := h
  intro hs
  have := (Store.send_unbuffered hch hcap hs).1
  omega

theorem Store.Unready.set_other {w : Store} {d : Nat} (h : w.Unready d) (a : Nat)
    (hne : a ≠ d) (ch1 : Chan) (wgs : List Nat) :
    Store.Unready { chans := w.chans.set a ch1, wgs := wgs } d := by
  obtain ⟨ch, hch, hcap, hq⟩ := h
  exact ⟨ch, by simp [List.getElem?_set, hne, hch], hcap, hq⟩

theorem Store.Unready.of_chans_eq {w w1 : Store} {d : Nat} (h : w.Unready d)
    (he : w1.chans = w.chans) : w1.Unready d := by
  obtain ⟨ch, hch, hcap, hq⟩ := h
  exact ⟨ch, by rw [he]; exact hch, hcap, hq⟩

theorem Store.Unready.recv_other {w : Store} {d : Nat} (h : w.Unready d) (a : Nat)
    (hne : a ≠ d) : (w.recv a).Unready d := by
  cases hch : w.chans[a]? with
  | none => simp only [Store.recv, hch]; exact h
  | some ch =>
    simp only [Store.recv, hch]
    split
    · exact h.set_other a hne _ _
    · split
      · exact h
      · exact h.set_other a hne _ _

theorem Store.Unready.send_other {w w1 : Store} {d : Nat} (h : w.Unready d) (c : Nat)
    (v : Val) (hs : w.send (some c) v = .ok w1) : w1.Unready d := by
  by_cases hcd : c = d
  · subst hcd
    exact absurd hs (h.send_not_ok v w1)
  · cases hch : w.chans[c]? with
    | none => simp [Store.send, hch] at hs
    | some ch =>
      simp only [Store.send, hch] at hs
      split at hs
      · cases hs
      · split at hs
        · cases hs; exact h.set_other c hcd _ _
        · split at hs
          · cases hs; exact h.set_other c hcd _ _
          · cases hs

theorem Moved.unready {e : Event} {w w1 : Store} {d : Nat} (hm : Moved e w w1)
    (h : w.Unready d) (he : e ≠ .recv d) : w1.Unready d := by
  rcases hm with hm | hm
  · subst hm; exact h
  · cases e <;> simp only at hm
    · exact h.of_chans_eq (Store.wgAdd_chans hm)
    · exact h.of_chans_eq (Store.wgDone_chans hm)
    · rename_i c
      subst hm
      exact h.recv_other c (fun hc => he (by rw [hc]))
    · exact h.send_other _ _ hm

/-- While no receiver arrives at the done channel, a step leaves `shutdown` at or
before its send. -/
theorem shutdown_handoff_step (app : Config) (d : Nat) (s : Sys) (e : Event)
    (hd : app.Mailer.DoneChan = some d)
    (hp : s.thread.trace ++ s.thread.prog = shutdown app)
    (hl : s.thread.trace.length ≤ 2) (hu : s.world.Unready d) (he : e ≠ .recv d) :
    (s.step e).thread.trace.length ≤ 2 ∧ (s.step e).world.Unready d := by
  rcases s.step_cases e with ⟨h1, _, hm, _⟩ | ⟨i, rest, _, hprog, htr, _, hf⟩
  · rw [h1]; exact ⟨hl, hm.unready hu he⟩
  · rw [htr]
    obtain ⟨k, hlen, hk, ht, hpk⟩ := append_eq_take_drop hp
    have hk2 : k ≤ 2 := by omega
    rw [hprog] at hpk
    interval_cases k
    · simp [shutdown] at hpk
      obtain ⟨hi, _⟩ := hpk
      subst hi
      rcases hf with ⟨_, hex, _⟩ | ⟨sg, sigs, _, hi, _⟩
      · simp only [Executed] at hex
        rw [hex.2]
        exact ⟨by simp [← hlen], hu⟩
      · cases hi
    · simp [shutdown] at hpk
      obtain ⟨hi, _⟩ := hpk
      subst hi
      rcases hf with ⟨_, hex, _⟩ | ⟨sg, sigs, _, hi, _⟩
      · simp only [Executed] at hex
        rw [hex.2]
        exact ⟨by simp [← hlen], hu⟩
      · cases hi
    · exfalso
      simp [shutdown] at hpk
      obtain ⟨hi, _⟩ := hpk
      subst hi
      rcases hf with ⟨_, hex, _⟩ | ⟨sg, sigs, _, hi, _⟩
      · simp only [Executed, hd] at hex
        exact hu.send_not_ok _ _ hex
      · cases hi

theorem shutdown_handoff_run (app : Config) (d : Nat) (s : Sys) (evs : List Event)
    (hd : app.Mailer.DoneChan = some d)
    (hp : s.thread.trace ++ s.thread.prog = shutdown app)
    (hl : s.thread.trace.length ≤ 2) (hu : s.world.Unready d)
    (he : ∀ e ∈ evs, e ≠ .recv d) :
    (s.run evs).thread.trace.length ≤ 2 := by
  induction evs generalizing s with
  | nil => exact hl
  | cons e evs ih =>
    have hs := shutdown_handoff_step app d s e hd hp hl hu (he e (by simp))
    exact ih (s.step e) (by rw [Sys.step_trace_prog]; exact hp) hs.1 hs.2
      (fun e1 h1 => he e1 (by simp [h1]))

/-- What `createMail` returns, written out. -/
theorem createMail_eq (app : Config) (w : Store) :
    createMail app w =
      ({ Domain := "localhost", Host := "localhost", Port := 1025, Encryption := "none",
         FromAddress := "mohammad@erfani.com", FromName := "mohammad", Wait := app.Wait,
         ErrorChan := some w.chans.length, MailerChan := some (w.chans.length + 1),
         DoneChan := some (w.chans.length + 2) },
       app,
       { chans := w.chans ++ [Chan.make 0, Chan.make 100, Chan.make 0], wgs := w.wgs }) := by
  simp [createMail, Store.makeChan]

theorem createMail_errorChan (app : Config) (w : Store) :
    (createMail app w).2.2.chans[w.chans.length]? = some (Chan.make 0) := by
  rw [createMail_eq]
  show (w.chans ++ [Chan.make 0, Chan.make 100, Chan.make 0])[w.chans.length]? = _
  rw [List.getElem?_append_right (by omega)]
  simp

theorem createMail_mailerChan (app : Config) (w : Store) :
    (createMail app w).2.2.chans[w.chans.length + 1]? = some (Chan.make 100) := by
  rw [createMail_eq]
  show (w.chans ++ [Chan.make 0, Chan.make 100, Chan.make 0])[w.chans.length + 1]? = _
  rw [List.getElem?_append_right (by omega)]
  simp

theorem createMail_doneChan (app : Config) (w : Store) :
    (createMail app w).2.2.chans[w.chans.length + 2]? = some (Chan.make 0) := by
  rw [createMail_eq]
  show (w.chans ++ [Chan.make 0, Chan.make 100, Chan.make 0])[w.chans.length + 2]? = _
  rw [List.getElem?_append_right (by omega)]
  simp

/-- C5: the done channel `createMail` makes has capacity 0 and nobody waiting on it;
on such a channel the send in `shutdown` does not complete, and `shutdown` closes
nothing, along any run in which no receiver arrives at the channel; a send on an
unbuffered channel completes only by releasing a parked receiver; and in every run
a close by `shutdown` comes after its send of the done signal. -/
theorem done_signal_is_handoff (app : Config) (w : Store) (evs : List Event) :
    (createMail app w).2.2.chan? (createMail app w).1.DoneChan = some (Chan.make 0)
    ∧ (∃ d, (createMail app w).1.DoneChan = some d ∧ (createMail app w).2.2.Unready d)
    ∧ (∀ (w0 : Store) (d : Nat), app.Mailer.DoneChan = some d → w0.Unready d →
        (∀ e ∈ evs, e ≠ Event.recv d) →
        chanOps ((Sys.boot w0 (shutdown app)).run evs).thread.trace = [])
    ∧ (∀ (w0 w1 : Store) (d : Nat) (ch : Chan) (v : Val), w0.chans[d]? = some ch →
        ch.cap = 0 → w0.send (some d) v = .ok w1 →
        0 < ch.recvq ∧ w1.chans[d]? = some { ch with recvq := ch.recvq - 1 })
    ∧ (∀ (w0 : Store) (c : Ref),
        Instr.close c ∈ ((Sys.boot w0 (shutdown app)).run evs).thread.trace →
        ∃ pre post, ((Sys.boot w0 (shutdown app)).run evs).thread.trace
            = pre ++ Instr.send app.Mailer.DoneChan (.bool true) :: post
          ∧ chanOps pre = [] ∧ Instr.close c ∈ post) := by
  refine ⟨?_, ⟨w.chans.length + 2, ?_, ?_⟩, ?_, ?_, ?_⟩
  · have h := createMail_doneChan app w
    simpa [createMail_eq, Store.chan?] using h
  · simp [createMail_eq]
  · exact ⟨Chan.make 0, createMail_doneChan app w, rfl, rfl⟩
  · intro w0 d hd hu he
    have hl := shutdown_handoff_run app d (Sys.boot w0 (shutdown app)) evs hd rfl
      (by simp [Sys.boot]) hu he
    obtain ⟨k, hlen, hk, ht, -⟩ :=
      append_eq_take_drop (Sys.boot_run_trace_prog w0 (shutdown app) evs)
    rw [ht]
    have hk2 : k ≤ 2 := by omega
    interval_cases k <;> simp [shutdown, chanOps]
  · intro w0 w1 d ch v hch hcap hs
    exact Store.send_unbuffered hch hcap hs
  · intro w0 c hc
    obtain ⟨k, hlen, hk, ht, -⟩ :=
      append_eq_take_drop (Sys.boot_run_trace_prog w0 (shutdown app) evs)
    rw [ht] at hc ⊢
    rw [shutdown_length] at hk
    refine ⟨[.println app.InfoLog "run cleanup task", .wgWait app.Wait],
      ((shutdown app).take k).drop 3, ?_, rfl, ?_⟩
    · interval_cases k <;> simp [shutdown] at hc ⊢
    · interval_cases k <;> simp [shutdown] at hc ⊢ <;> tauto

/-- C5 at a concrete run: the counter is zero but no receiver arrives at the done
channel, and `shutdown` stays in its send and closes nothing. -/
theorem done_signal_is_handoff_witness :
    demoApp.Mailer.DoneChan = some 2
    ∧ demoWorld.Unready 2
    ∧ (∀ e ∈ noReceiverSchedule, e ≠ Event.recv 2)
    ∧ chanOps ((Sys.boot demoWorld (shutdown demoApp)).run noReceiverSchedule).thread.trace = [] :=
  ⟨rfl, ⟨Chan.make 0, rfl, rfl, rfl⟩, by decide,
   (done_signal_is_handoff demoApp demoWorld noReceiverSchedule).2.2.1 demoWorld 2 rfl
     ⟨Chan.make 0, rfl, rfl, rfl⟩ (by decide)⟩

/-! ## listenForShutdown -/

theorem listenForShutdown_length (app : Config) : (listenForShutdown app).length = 11 := rfl

theorem AwaitingSignal.awaiting_step {app : Config} {s : Sys} (h : AwaitingSignal app s) (e : Event)
    (he : e ≠ .signal .SIGINT ∧ e ≠ .signal .SIGTERM) : AwaitingSignal app (s.step e) := by
  obtain ⟨hp, hshape⟩ := h
  refine ⟨by rw [Sys.step_trace_prog]; exact hp, ?_⟩
  obtain ⟨w, ⟨prog, trace, quit, relay, status⟩⟩ := s
  simp only at hp hshape
  rcases hshape with ⟨rfl, rfl, rfl⟩ | ⟨rfl, rfl, rfl⟩ | ⟨rfl, rfl, rfl⟩
  · simp only [List.nil_append] at hp
    subst hp
    cases status <;> cases e <;>
      simp [Sys.step, Sys.tick, Sys.signal, Thread.advance, listenForShutdown,
        Sys.settle_trace, Sys.settle_quit, Sys.settle_relay]
  · simp [listenForShutdown] at hp
    subst hp
    cases status <;> cases e <;>
      simp [Sys.step, Sys.tick, Sys.signal, Thread.advance,
        Sys.settle_trace, Sys.settle_quit, Sys.settle_relay]
  · simp [listenForShutdown] at hp
    subst hp
    cases status <;> cases e <;>
      simp [Sys.step, Sys.tick, Sys.signal, Thread.advance,
        Sys.settle_trace, Sys.settle_quit, Sys.settle_relay]
    rename_i sg
    cases sg <;> simp [relays] at he ⊢

theorem AwaitingSignal.awaiting_run {app : Config} {s : Sys} (h : AwaitingSignal app s)
    (evs : List Event) (he : ∀ e ∈ evs, e ≠ .signal .SIGINT ∧ e ≠ .signal .SIGTERM) :
    AwaitingSignal app (s.run evs) := by
  induction evs generalizing s with
  | nil => exact h
  | cons e evs ih =>
    exact ih (h.awaiting_step e (he e (by simp))) (fun e1 h1 => he e1 (by simp [h1]))

theorem ExitLast.exit_step {s : Sys} (h : ExitLast s) (e : Event) : ExitLast (s.step e) := by
  intro code hcode
  rcases s.step_cases e with ⟨htr, _, _, hst⟩ | ⟨i, rest, _, _, htr, _, hf⟩
  · rw [htr]; exact h code (hst code hcode)
  · rw [htr]
    rcases hf with ⟨_, _, hsa⟩ | ⟨sg, sigs, _, _, _, _, _, hrun⟩
    · rw [hsa] at hcode
      cases i <;> simp [statusAfter] at hcode
      subst hcode
      exact ⟨_, rfl⟩
    · rw [hrun] at hcode; cases hcode

theorem ExitLast.exit_run {s : Sys} (h : ExitLast s) (evs : List Event) : ExitLast (s.run evs) := by
  induction evs generalizing s with
  | nil => exact h
  | cons e evs ih => exact ih (h.exit_step e)

theorem ExitLast.exit_boot (w : Store) (p : List Instr) : ExitLast (Sys.boot w p) := by
  intro code h
  simp [Sys.boot] at h

/-- C7: along a run in which neither SIGINT nor SIGTERM is delivered,
`listenForShutdown` gets no further than making `quit` and subscribing it to these
two signals (no instruction of `shutdown`, no exit); and in every run, once the
process has exited through this goroutine, the exit status is 0, the whole of
`shutdown` has run before it (its channel operations are the send and the three
closes), and the exit is the last effect. -/
theorem listenForShutdown_exits_after_cleanup (app : Config) (w : Store)
    (evs : List Event) :
    ((∀ e ∈ evs, e ≠ Event.signal .SIGINT ∧ e ≠ Event.signal .SIGTERM) →
        ((Sys.boot w (listenForShutdown app)).run evs).thread.trace
          <+: [.makeQuit, .notifyQuit [.SIGINT, .SIGTERM]])
    ∧ (∀ code, Instr.exit code ∈ ((Sys.boot w (listenForShutdown app)).run evs).thread.trace →
        code = 0
        ∧ ((Sys.boot w (listenForShutdown app)).run evs).thread.trace
            = [.makeQuit, .notifyQuit [.SIGINT, .SIGTERM], .recvQuit] ++ shutdown app
              ++ [.exit 0])
    ∧ (∀ code, ((Sys.boot w (listenForShutdown app)).run evs).thread.status = .exited code →
        code = 0
        ∧ ((Sys.boot w (listenForShutdown app)).run evs).thread.trace = listenForShutdown app
        ∧ chanOps ((Sys.boot w (listenForShutdown app)).run evs).thread.trace
            = shutdownOps app
        ∧ ((Sys.boot w (listenForShutdown app)).run evs).thread.trace.getLast?
            = some (.exit 0)) := by
  have hp := Sys.boot_run_trace_prog w (listenForShutdown app) evs
  have hex := (ExitLast.exit_boot w (listenForShutdown app)).exit_run evs
  have hfull : ∀ code,
      Instr.exit code ∈ ((Sys.boot w (listenForShutdown app)).run evs).thread.trace →
      code = 0
      ∧ ((Sys.boot w (listenForShutdown app)).run evs).thread.trace
          = listenForShutdown app := by
    intro code hc
    obtain ⟨k, hlen, hk, ht, -⟩ := append_eq_take_drop hp
    rw [listenForShutdown_length] at hk
    rw [ht] at hc ⊢
    interval_cases k <;> simp [listenForShutdown, shutdown] at hc ⊢
    exact hc
  refine ⟨?_, ?_, ?_⟩
  · intro he
    have hinit : AwaitingSignal app (Sys.boot w (listenForShutdown app)) :=
      ⟨rfl, Or.inl ⟨rfl, rfl, rfl⟩⟩
    obtain ⟨-, h | h | h⟩ := hinit.awaiting_run evs he
    · rw [h.1]; exact List.nil_prefix
    · rw [h.1]; exact ⟨[_], rfl⟩
    · rw [h.1]
  · intro code hc
    exact hfull code hc
  · intro code hst
    obtain ⟨pre, hpre⟩ := hex code hst
    have hmem : Instr.exit code ∈
        ((Sys.boot w (listenForShutdown app)).run evs).thread.trace := by
      rw [hpre]; simp
    obtain ⟨h0, htr⟩ := hfull code hmem
    refine ⟨h0, htr, ?_, ?_⟩
    · rw [htr]; rfl
    · rw [htr]; rfl

/-- C7 at a concrete run: SIGTERM arrives while the goroutine waits, the cleanup runs
to its end, and the process exits with status 0 as the last effect. -/
theorem listenForShutdown_exits_after_cleanup_witness :
    ((Sys.boot demoWorld (listenForShutdown demoApp)).run terminateSchedule).thread.status
      = .exited 0
    ∧ ((Sys.boot demoWorld (listenForShutdown demoApp)).run terminateSchedule).thread.trace
        = listenForShutdown demoApp :=
  ⟨by decide,
   ((listenForShutdown_exits_after_cleanup demoApp demoWorld terminateSchedule).2.2 0
      (by decide)).2.1⟩

/-! ## createMail: the three channels and the shared counter -/

/-- With room in the buffer of an open channel on which nobody waits, all the sends
of a list of values complete and the values are buffered in order. -/
theorem Store.sendAll_room (vs : List Val) (w : Store) (a : Nat) (ch : Chan)
    (hch : w.chans[a]? = some ch) (hopen : ch.closed = false) (hq : ch.recvq = 0)
    (hroom : ch.buf.length + vs.length ≤ ch.cap) :
    ∃ w1, w.sendAll (some a) vs = .ok w1
      ∧ w1.chans[a]? = some { ch with buf := ch.buf ++ vs } := by
  induction vs generalizing w ch with
  | nil => exact ⟨w, rfl, by simpa using hch⟩
  | cons v vs ih =>
    have hlt : a < w.chans.length := by
      rcases List.getElem?_eq_some.mp hch with ⟨hlt, _⟩
      exact hlt
    have hlen : ch.buf.length < ch.cap := by
      simp only [List.length_cons] at hroom
      omega
    have hsend : w.send (some a) v
        = .ok { w with chans := w.chans.set a { ch with buf := ch.buf ++ [v] } } := by
      simp [Store.send, hch, hopen, hq, hlen]
    obtain ⟨w1, h1, h2⟩ :=
      ih { w with chans := w.chans.set a { ch with buf := ch.buf ++ [v] } }
        { ch with buf := ch.buf ++ [v] }
        (by simp [List.getElem?_set, hlt]) hopen hq
        (by simp only [List.length_append, List.length_cons, List.length_nil] at hroom ⊢
            omega)
    refine ⟨w1, ?_, ?_⟩
    · simp only [Store.sendAll, hsend]
      exact h1
    · simpa using h2

/-- A send on an open channel whose buffer is full and on which nobody waits
blocks. -/
theorem Store.send_full {w : Store} {a : Nat} {ch : Chan} (v : Val)
    (hch : w.chans[a]? = some ch) (hopen : ch.closed = false) (hq : ch.recvq = 0)
    (hfull : ch.cap ≤ ch.buf.length) : w.send (some a) v = .blocked := by
  have : ¬ ch.buf.length < ch.cap := by omega
  simp [Store.send, hch, hopen, hq, this]

/-- Once a receiver has parked on an open, empty channel, a send hands the value over
and leaves the channel as it was before the receiver came. -/
theorem Store.recv_then_send (w : Store) (d : Nat) (ch : Chan) (v : Val)
    (hch : w.chans[d]? = some ch) (hopen : ch.closed = false) (hbuf : ch.buf = []) :
    ∃ w1, (w.recv d).send (some d) v = .ok w1 ∧ w1.chan? (some d) = some ch := by
  have hlt : d < w.chans.length := by
    rcases List.getElem?_eq_some.mp hch with ⟨hlt, _⟩
    exact hlt
  obtain ⟨cap, buf, closed, recvq⟩ := ch
  simp only at hopen hbuf
  subst hopen hbuf
  refine ⟨{ chans := (w.chans.set d ⟨cap, [], false, recvq + 1⟩).set d ⟨cap, [], false, recvq⟩,
            wgs := w.wgs }, ?_, ?_⟩
  · simp [Store.recv, Store.send, hch, List.getElem?_set, hlt]
  · simp [Store.chan?, List.getElem?_set, hlt]

/-- C4: the message queue `createMail` makes has capacity 100, whatever the
configuration and the store: on the fresh Mailer, with no consumer, up to 100
messages are enqueued in order without blocking, and after 100 the next send
blocks. -/
theorem mailerChan_capacity (app : Config) (w : Store) (msgs : List Message)
    (extra : Message) :
    (createMail app w).2.2.chan? (createMail app w).1.MailerChan = some (Chan.make 100)
    ∧ (msgs.length ≤ 100 →
        ∃ w1, (createMail app w).2.2.sendAll (createMail app w).1.MailerChan
            (msgs.map Val.msg) = .ok w1
          ∧ w1.chan? (createMail app w).1.MailerChan
            = some { Chan.make 100 with buf := msgs.map Val.msg })
    ∧ (msgs.length = 100 →
        ∃ w1, (createMail app w).2.2.sendAll (createMail app w).1.MailerChan
            (msgs.map Val.msg) = .ok w1
          ∧ w1.send (createMail app w).1.MailerChan (.msg extra) = .blocked) := by
  have hm : (createMail app w).1.MailerChan = some (w.chans.length + 1) := by
    simp [createMail_eq]
  have hch := createMail_mailerChan app w
  rw [hm]
  refine ⟨hch, ?_, ?_⟩
  · intro hlen
    obtain ⟨w1, h1, h2⟩ := Store.sendAll_room (msgs.map Val.msg) _ _ _ hch rfl rfl
      (by simpa [Chan.make] using hlen)
    exact ⟨w1, h1, by simpa [Store.chan?, Chan.make] using h2⟩
  · intro hlen
    obtain ⟨w1, h1, h2⟩ := Store.sendAll_room (msgs.map Val.msg) _ _ _ hch rfl rfl
      (by simp [Chan.make, hlen])
    exact ⟨w1, h1, Store.send_full _ h2 rfl rfl (by simp [Chan.make, hlen])⟩

/-- C4 at a concrete input: a hundred messages go into the fresh queue, and the next
send blocks. -/
theorem mailerChan_capacity_witness :
    (List.replicate 100 demoMessage).length = 100
    ∧ ∃ w1, (createMail demoConfig demoStore).2.2.sendAll
          (createMail demoConfig demoStore).1.MailerChan
          ((List.replicate 100 demoMessage).map Val.msg) = .ok w1
        ∧ w1.send (createMail demoConfig demoStore).1.MailerChan (.msg demoMessage)
          = .blocked :=
  ⟨List.length_replicate 100 demoMessage,
   (mailerChan_capacity demoConfig demoStore (List.replicate 100 demoMessage)
      demoMessage).2.2 (List.length_replicate 100 demoMessage)⟩

/-- The claim C3 at a concrete input fails: on the fresh Mailer, with no error report
pending and no receiver waiting, a push onto `ErrorChan` blocks the sender. -/
theorem errorChan_push_blocks :
    (createMail demoConfig demoStore).2.2.send (createMail demoConfig demoStore).1.ErrorChan
      (Val.err "dial tcp: connection refused") = Outcome.blocked := by
  decide

/-- C3, amended: the error-report channel `createMail` makes is unbuffered (capacity
0, empty, open). With no receiver waiting a push onto it blocks the sender; a push
completes only by handing the report to a receiver parked on the channel, which it
releases, and buffers nothing; and after a receiver has arrived, the push
completes and leaves the channel as it was made. -/
theorem errorChan_unbuffered (app : Config) (w : Store) (e : String) :
    (createMail app w).2.2.chan? (createMail app w).1.ErrorChan = some (Chan.make 0)
    ∧ (createMail app w).2.2.send (createMail app w).1.ErrorChan (.err e) = .blocked
    ∧ (∀ (w0 w1 : Store) (d : Nat) (ch : Chan), w0.chans[d]? = some ch → ch.cap = 0 →
        w0.send (some d) (.err e) = .ok w1 →
        0 < ch.recvq ∧ w1.chans[d]? = some { ch with recvq := ch.recvq - 1 })
    ∧ (∃ w1, ((createMail app w).2.2.recv w.chans.length).send
          (createMail app w).1.ErrorChan (.err e) = .ok w1
        ∧ w1.chan? (createMail app w).1.ErrorChan = some (Chan.make 0)) := by
  have hm : (createMail app w).1.ErrorChan = some w.chans.length := by
    simp [createMail_eq]
  have hch := createMail_errorChan app w
  have hlt : w.chans.length < (createMail app w).2.2.chans.length := by
    rcases List.getElem?_eq_some.mp hch with ⟨hlt, _⟩
    exact hlt
  rw [hm]
  refine ⟨hch, ?_, ?_, ?_⟩
  · exact Store.send_full _ hch rfl rfl (by simp [Chan.make])
  · intro w0 w1 d ch hc hcap hs
    exact Store.send_unbuffered hc hcap hs
  · exact Store.recv_then_send _ _ _ (.err e) hch rfl rfl

/-- C6: the Mail `createMail` returns holds the very pointer `app.Wait`, the one
`shutdown` waits on; `createMail` leaves every field of `app` as it was, makes no
wait group and changes no counter, and leaves the channels that existed as they
were. -/
theorem createMail_shares_counter (app : Config) (w : Store) :
    (createMail app w).1.Wait = app.Wait
    ∧ Instr.wgWait (createMail app w).1.Wait ∈ shutdown app
    ∧ (createMail app w).2.1 = app
    ∧ (createMail app w).2.2.wgs = w.wgs
    ∧ (∀ g, (createMail app w).2.2.counter? g = w.counter? g)
    ∧ (∀ a, a < w.chans.length → (createMail app w).2.2.chans[a]? = w.chans[a]?) := by
  rw [createMail_eq]
  refine ⟨rfl, by simp [shutdown], rfl, rfl, fun g => rfl, ?_⟩
  intro a ha
  exact List.getElem?_append_left ha

/-! ## ConnectToDB -/

theorem ConnectToDB.loop_all_fail (driver : Nat → Attempt) (l : List Nat)
    (tr : List DBEffect) (h : ∀ j ∈ l, ∃ e, driver j = .openErr e) :
    ConnectToDB.loop driver l tr
      = { db := none, err := some "cannot connect to database",
          effects := tr ++ failedPasses driver l } := by
  induction l generalizing tr with
  | nil => simp [ConnectToDB.loop, failedPasses]
  | cons i more ih =>
    obtain ⟨e, he⟩ := h i (by simp)
    rw [ConnectToDB.loop]
    simp only [he]
    rw [ih _ (fun j hj => h j (by simp [hj]))]
    simp [failedPasses, he]

theorem ConnectToDB.loop_first_opened (driver : Nat → Attempt) (l1 l2 : List Nat) (k db : Nat)
    (p : Option String) (tr : List DBEffect) (h : ∀ j ∈ l1, ∃ e, driver j = .openErr e)
    (hk : driver k = .opened db p) :
    ConnectToDB.loop driver (l1 ++ k :: l2) tr
      = { db := openedHandle db p,
          err := p,
          effects := tr ++ failedPasses driver l1 ++ openedPass k db p } := by
  induction l1 generalizing tr with
  | nil =>
    cases p <;> simp [ConnectToDB.loop, hk, failedPasses, openedPass, openedHandle]
  | cons i more ih =>
    obtain ⟨e, he⟩ := h i (by simp)
    rw [List.cons_append, ConnectToDB.loop]
    simp only [he]
    rw [ih _ (fun j hj => h j (by simp [hj]))]
    simp [failedPasses, he]

/-- Either every pass fails to open, or there is a first pass that opens. -/
theorem first_opened (driver : Nat → Attempt) (l : List Nat) :
    (∀ j ∈ l, ∃ e, driver j = .openErr e)
    ∨ ∃ l1 k l2 db p, l = l1 ++ k :: l2 ∧ (∀ j ∈ l1, ∃ e, driver j = .openErr e)
        ∧ driver k = .opened db p := by
  induction l with
  | nil => left; simp
  | cons i more ih =>
    cases hi : driver i with
    | opened db p => exact Or.inr ⟨[], i, more, db, p, rfl, by simp, hi⟩
    | openErr e =>
      rcases ih with hall | ⟨l1, k, l2, db, p, hl, h1, hk⟩
      · left
        intro j hj
        rcases List.mem_cons.mp hj with rfl | hj
        · exact ⟨e, hi⟩
        · exact hall j hj
      · right
        refine ⟨i :: l1, k, l2, db, p, by simp [hl], ?_, hk⟩
        intro j hj
        rcases List.mem_cons.mp hj with rfl | hj
        · exact ⟨e, hi⟩
        · exact h1 j hj

theorem failedPasses_opens (driver : Nat → Attempt) (l : List Nat)
    (h : ∀ j ∈ l, ∃ e, driver j = .openErr e) :
    (failedPasses driver l).countP isOpen = l.length := by
  induction l with
  | nil => rfl
  | cons i more ih =>
    obtain ⟨e, he⟩ := h i (by simp)
    simp only [failedPasses, he, List.countP_append, List.length_cons]
    rw [ih (fun j hj => h j (by simp [hj]))]
    simp [List.countP_cons, isOpen]
    omega

theorem range_split (k : Nat) (h1 : 1 ≤ k) (h2 : k ≤ 10) :
    List.range' 1 10 = List.range' 1 (k - 1) ++ k :: List.range' (k + 1) (10 - k) := by
  interval_cases k <;> rfl

theorem ConnectToDB_eq (driver : Nat → Attempt) :
    ConnectToDB driver = ConnectToDB.loop driver (List.range' 1 10) [.getenv "DSN"] := rfl

/-- What `ConnectToDB` does when pass `k` is the first on which `sql.Open` returns a
handle. -/
theorem ConnectToDB_first_opened (driver : Nat → Attempt) (k db : Nat) (p : Option String)
    (h1 : 1 ≤ k) (h2 : k ≤ 10) (hf : ∀ j, 1 ≤ j → j < k → ∃ e, driver j = .openErr e)
    (hk : driver k = .opened db p) :
    ConnectToDB driver
      = { db := openedHandle db p,
          err := p,
          effects := [.getenv "DSN"] ++ failedPasses driver (List.range' 1 (k - 1))
            ++ openedPass k db p } := by
  rw [ConnectToDB_eq, range_split k h1 h2]
  apply ConnectToDB.loop_first_opened _ _ _ _ _ _ _ _ hk
  intro j hj
  rw [List.mem_range'_1] at hj
  exact hf j hj.1 (by omega)

theorem ConnectToDB_all_fail (driver : Nat → Attempt)
    (hf : ∀ j, 1 ≤ j → j ≤ 10 → ∃ e, driver j = .openErr e) :
    ConnectToDB driver
      = { db := none, err := some "cannot connect to database",
          effects := [.getenv "DSN"] ++ failedPasses driver (List.range' 1 10) } := by
  rw [ConnectToDB_eq]
  apply ConnectToDB.loop_all_fail
  intro j hj
  rw [List.mem_range'_1] at hj
  exact hf j hj.1 (by omega)

/-- Every run of `ConnectToDB` is of one of the two kinds. -/
theorem ConnectToDB_cases (driver : Nat → Attempt) :
    (∀ j, 1 ≤ j → j ≤ 10 → ∃ e, driver j = .openErr e)
    ∨ ∃ k db p, 1 ≤ k ∧ k ≤ 10 ∧ (∀ j, 1 ≤ j → j < k → ∃ e, driver j = .openErr e)
        ∧ driver k = .opened db p := by
  rcases first_opened driver (List.range' 1 10) with hall | ⟨l1, k, l2, db, p, hl, h1, hk⟩
  · left
    intro j hj1 hj2
    exact hall j (by rw [List.mem_range'_1]; omega)
  · right
    obtain ⟨m, hm, hl1, hl2⟩ := List.range'_eq_append_iff.mp hl
    have hl2c := List.range'_eq_cons_iff.mp hl2.symm
    obtain ⟨hk1, hpos, -⟩ := hl2c
    refine ⟨k, db, p, by omega, by omega, ?_, hk⟩
    intro j hj1 hj2
    apply h1
    rw [hl1, List.mem_range'_1]
    omega

theorem ConnectToDB.loop_effects_extend (driver : Nat → Attempt) (l : List Nat)
    (tr : List DBEffect) : ∃ post, (ConnectToDB.loop driver l tr).effects = tr ++ post := by
  induction l generalizing tr with
  | nil => exact ⟨[], by simp [ConnectToDB.loop]⟩
  | cons i more ih =>
    rw [ConnectToDB.loop]
    cases hi : driver i with
    | opened db p => cases p <;> exact ⟨_, rfl⟩
    | openErr e =>
      obtain ⟨post, hpost⟩ := ih
        (tr ++ [.sqlOpen "pgx" i, .println ("postgres not yet ready... " ++ e), .sleep 1])
      exact ⟨[.sqlOpen "pgx" i, .println ("postgres not yet ready... " ++ e), .sleep 1] ++ post,
        by rw [hpost, List.append_assoc]⟩

/-- Every pass starts with a call to `sql.Open`. -/
theorem ConnectToDB.loop_starts_with_open (driver : Nat → Attempt) (i : Nat) (l : List Nat)
    (tr : List DBEffect) :
    ∃ post, (ConnectToDB.loop driver (i :: l) tr).effects = tr ++ .sqlOpen "pgx" i :: post := by
  rw [ConnectToDB.loop]
  cases hi : driver i with
  | opened db p => cases p <;> exact ⟨_, rfl⟩
  | openErr e =>
    obtain ⟨post, hpost⟩ := ConnectToDB.loop_effects_extend driver l
      (tr ++ [.sqlOpen "pgx" i, .println ("postgres not yet ready... " ++ e), .sleep 1])
    exact ⟨[.println ("postgres not yet ready... " ++ e), .sleep 1] ++ post,
      by rw [hpost]; simp⟩

theorem ConnectToDB.loop_skip_failed (driver : Nat → Attempt) (l1 l2 : List Nat)
    (tr : List DBEffect) (h : ∀ j ∈ l1, ∃ e, driver j = .openErr e) :
    ConnectToDB.loop driver (l1 ++ l2) tr
      = ConnectToDB.loop driver l2 (tr ++ failedPasses driver l1) := by
  induction l1 generalizing tr with
  | nil => simp [failedPasses]
  | cons i more ih =>
    obtain ⟨e, he⟩ := h i (by simp)
    rw [List.cons_append, ConnectToDB.loop]
    simp only [he]
    rw [ih _ (fun j hj => h j (by simp [hj]))]
    simp [failedPasses, he]

theorem range_split_retry (j : Nat) (h1 : 1 ≤ j) (h2 : j < 10) :
    List.range' 1 10 = List.range' 1 j ++ (j + 1) :: List.range' (j + 2) (9 - j) := by
  interval_cases j <;> rfl

theorem failedPasses_snoc (driver : Nat → Attempt) (j : Nat) (e : String) (h1 : 1 ≤ j)
    (hj : driver j = .openErr e) :
    failedPasses driver (List.range' 1 j)
      = failedPasses driver (List.range' 1 (j - 1))
        ++ [.sqlOpen "pgx" j, .println ("postgres not yet ready... " ++ e), .sleep 1] := by
  obtain ⟨m, rfl⟩ : ∃ m, j = m + 1 := ⟨j - 1, by omega⟩
  rw [Nat.add_sub_cancel, List.range'_concat, Nat.one_mul, Nat.add_comm 1 m]
  generalize List.range' 1 m = l
  induction l with
  | nil => simp [failedPasses, hj]
  | cons i more ih => simp [failedPasses, ih]

/-- C10: `ConnectToDB` calls `sql.Open` at most 10 times; it returns a handle and a
nil error exactly when some pass among the first 10 opens and the ping on the first
such pass succeeds; a ping failure on that pass is returned at once with a nil
handle and no further pass; a failed open is followed by the log line, a sleep of
one second and, before the tenth pass, the next open; after 10 failed opens the
result is nil and "cannot connect to database"; and exactly one of the handle and
the error is nil. -/
theorem connectToDB_spec (driver : Nat → Attempt) :
    (ConnectToDB driver).effects.countP isOpen ≤ 10
    ∧ ((∃ db, (ConnectToDB driver).db = some db ∧ (ConnectToDB driver).err = none) ↔
        ∃ k db, 1 ≤ k ∧ k ≤ 10 ∧ (∀ j, 1 ≤ j → j < k → ∃ e, driver j = .openErr e)
          ∧ driver k = .opened db none)
    ∧ (∀ k db, 1 ≤ k → k ≤ 10 → (∀ j, 1 ≤ j → j < k → ∃ e, driver j = .openErr e) →
        driver k = .opened db none →
        (ConnectToDB driver).db = some db ∧ (ConnectToDB driver).err = none
        ∧ (ConnectToDB driver).effects
            = [.getenv "DSN"] ++ failedPasses driver (List.range' 1 (k - 1))
              ++ [.sqlOpen "pgx" k, .ping db, .println "connect to database"]
        ∧ (ConnectToDB driver).effects.countP isOpen = k)
    ∧ (∀ k db e, 1 ≤ k → k ≤ 10 → (∀ j, 1 ≤ j → j < k → ∃ e1, driver j = .openErr e1) →
        driver k = .opened db (some e) →
        (ConnectToDB driver).db = none ∧ (ConnectToDB driver).err = some e
        ∧ (ConnectToDB driver).effects
            = [.getenv "DSN"] ++ failedPasses driver (List.range' 1 (k - 1))
              ++ [.sqlOpen "pgx" k, .ping db]
        ∧ (ConnectToDB driver).effects.countP isOpen = k)
    ∧ (∀ j e, 1 ≤ j → j < 10 → (∀ i, 1 ≤ i → i ≤ j → ∃ e1, driver i = .openErr e1) →
        driver j = .openErr e →
        ∃ pre post, (ConnectToDB driver).effects
          = pre ++ [.sqlOpen "pgx" j, .println ("postgres not yet ready... " ++ e), .sleep 1,
                    .sqlOpen "pgx" (j + 1)] ++ post)
    ∧ ((∀ j, 1 ≤ j → j ≤ 10 → ∃ e, driver j = .openErr e) →
        (ConnectToDB driver).db = none
        ∧ (ConnectToDB driver).err = some "cannot connect to database"
        ∧ (ConnectToDB driver).effects
            = [.getenv "DSN"] ++ failedPasses driver (List.range' 1 10)
        ∧ (ConnectToDB driver).effects.countP isOpen = 10)
    ∧ ((ConnectToDB driver).db = none ↔ (ConnectToDB driver).err ≠ none) := by
  have hopened : ∀ k db p, 1 ≤ k → k ≤ 10 →
      (∀ j, 1 ≤ j → j < k → ∃ e, driver j = .openErr e) → driver k = .opened db p →
      (ConnectToDB driver).effects.countP isOpen = k := by
    intro k db p h1 h2 hf hk
    rw [ConnectToDB_first_opened driver k db p h1 h2 hf hk]
    simp only [List.countP_append]
    rw [failedPasses_opens driver _ (fun j hj => by
      rw [List.mem_range'_1] at hj
      exact hf j hj.1 (by omega))]
    cases p <;> simp [openedPass, List.countP_cons, isOpen] <;> omega
  have hfail : (∀ j, 1 ≤ j → j ≤ 10 → ∃ e, driver j = .openErr e) →
      (ConnectToDB driver).effects.countP isOpen = 10 := by
    intro hf
    rw [ConnectToDB_all_fail driver hf]
    simp only [List.countP_append]
    rw [failedPasses_opens driver _ (fun j hj => by
      rw [List.mem_range'_1] at hj
      exact hf j hj.1 (by omega))]
    simp [List.countP_cons, isOpen]
  refine ⟨?_, ?_, ?_, ?_, ?_, ?_, ?_⟩
  · rcases ConnectToDB_cases driver with hf | ⟨k, db, p, h1, h2, hf, hk⟩
    · rw [hfail hf]
    · rw [hopened k db p h1 h2 hf hk]; exact h2
  · constructor
    · rintro ⟨db, hdb, herr⟩
      rcases ConnectToDB_cases driver with hf | ⟨k, db1, p, h1, h2, hf, hk⟩
      · rw [ConnectToDB_all_fail driver hf] at herr
        cases herr
      · rw [ConnectToDB_first_opened driver k db1 p h1 h2 hf hk] at herr
        simp only at herr
        subst herr
        exact ⟨k, db1, h1, h2, hf, hk⟩
    · rintro ⟨k, db, h1, h2, hf, hk⟩
      rw [ConnectToDB_first_opened driver k db none h1 h2 hf hk]
      exact ⟨db, rfl, rfl⟩
  · intro k db h1 h2 hf hk
    refine ⟨?_, ?_, ?_, hopened k db none h1 h2 hf hk⟩ <;>
      rw [ConnectToDB_first_opened driver k db none h1 h2 hf hk] <;> rfl
  · intro k db e h1 h2 hf hk
    refine ⟨?_, ?_, ?_, hopened k db (some e) h1 h2 hf hk⟩ <;>
      rw [ConnectToDB_first_opened driver k db (some e) h1 h2 hf hk] <;> rfl
  · intro j e h1 h2 hf hj
    rw [ConnectToDB_eq, range_split_retry j h1 h2,
      ConnectToDB.loop_skip_failed driver _ _ _ (fun i hi => by
        rw [List.mem_range'_1] at hi
        exact hf i hi.1 (by omega))]
    obtain ⟨post, hpost⟩ := ConnectToDB.loop_starts_with_open driver (j + 1)
      (List.range' (j + 2) (9 - j)) ([.getenv "DSN"] ++ failedPasses driver (List.range' 1 j))
    rw [hpost, failedPasses_snoc driver j e h1 hj]
    exact ⟨[.getenv "DSN"] ++ failedPasses driver (List.range' 1 (j - 1)), post, by simp⟩
  · intro hf
    refine ⟨?_, ?_, ?_, hfail hf⟩ <;> rw [ConnectToDB_all_fail driver hf]
  · rcases ConnectToDB_cases driver with hf | ⟨k, db, p, h1, h2, hf, hk⟩
    · rw [ConnectToDB_all_fail driver hf]
      simp
    · rw [ConnectToDB_first_opened driver k db p h1 h2 hf hk]
      cases p <;> simp [openedHandle]

/-- C10 at a concrete driver: two failed opens, then an open whose ping succeeds. -/
theorem connectToDB_spec_witness :
    (ConnectToDB upHost.driver).db = some 7
    ∧ (ConnectToDB upHost.driver).err = none
    ∧ (ConnectToDB upHost.driver).effects
        = [.getenv "DSN"] ++ failedPasses upHost.driver (List.range' 1 (3 - 1))
          ++ [.sqlOpen "pgx" 3, .ping 7, .println "connect to database"]
    ∧ (ConnectToDB upHost.driver).effects.countP isOpen = 3 :=
  (connectToDB_spec upHost.driver).2.2.1 3 7 (by decide) (by decide)
    (fun j _ h2 => ⟨"connection refused", by simp [upHost, h2]⟩) rfl

/-! ## main -/

/-- C8: when `ConnectToDB` returns a non-nil error, `main` does two things only: the
call to `ConnectToDB` and `log.Fatal` with that error. No later step is taken (no
session, no logger, no wait group, no Mailer, no `go` statement, no server), and the
store is as it was: no channel and no wait group has been made. -/
theorem main_aborts_on_connect_error (host : Host) (w : Store) (err : String)
    (h : (ConnectToDB host.driver).err = some err) :
    (main host w).1 = [.connectToDB (ConnectToDB host.driver).effects, .fatal none err]
    ∧ (main host w).1.getLast? = some (.fatal none err)
    ∧ (main host w).1.filter isLater = []
    ∧ started (main host w).1 = []
    ∧ (main host w).2 = w := by
  have hmain : main host w
      = ([.connectToDB (ConnectToDB host.driver).effects, .fatal none err], w) := by
    simp only [main, h]
  rw [hmain]
  exact ⟨rfl, rfl, rfl, rfl, rfl⟩

/-- C8 at a concrete host: the database never opens, and `main` takes no later
step. -/
theorem main_aborts_on_connect_error_witness :
    (ConnectToDB downHost.driver).err = some "cannot connect to database"
    ∧ (main downHost demoStore).1.filter isLater = []
    ∧ started (main downHost demoStore).1 = []
    ∧ (main downHost demoStore).2 = demoStore :=
  ⟨by decide,
   (main_aborts_on_connect_error downHost demoStore "cannot connect to database"
      (by decide)).2.2⟩

/-- C9: when the database connects, `main` sets up its collaborators, stores in the
application the Mailer `createMail` returns, starts `listenForMail` with `go`, then
starts `listenForShutdown` with `go`, and then runs `serve` in the foreground; both
goroutines and `serve` work on the application that holds that Mailer; `serve` starts
no goroutine, so the two `go` statements are the only ones and `serve` comes last. -/
theorem main_start_order (host : Host) (w : Store)
    (h : (ConnectToDB host.driver).err = none) :
    (main host w).1 =
      [ .connectToDB (ConnectToDB host.driver).effects,
        .initSession,
        .logNew "INFO\t",
        .logNew "Error\t",
        .newWaitGroup w.newWaitGroup.1,
        .dataNew (ConnectToDB host.driver).db,
        .setMailer (createMail (appBeforeMail host w) w.newWaitGroup.2).1,
        .go .listenForMail (appWithMail host w),
        .go .listenForShutdown (appWithMail host w) ]
      ++ serve (appWithMail host w) host
    ∧ (appWithMail host w).Mailer = (createMail (appBeforeMail host w) w.newWaitGroup.2).1
    ∧ (appWithMail host w).Mailer.Wait = (appWithMail host w).Wait
    ∧ started (main host w).1 = [.listenForMail, .listenForShutdown]
    ∧ started (serve (appWithMail host w) host) = []
    ∧ MainEffect.listenAndServe (":" ++ webPort) ∈ serve (appWithMail host w) host
    ∧ (main host w).2 = (createMail (appBeforeMail host w) w.newWaitGroup.2).2.2 := by
  have hmain : main host w
      = ([ .connectToDB (ConnectToDB host.driver).effects,
          .initSession,
          .logNew "INFO\t",
          .logNew "Error\t",
          .newWaitGroup w.newWaitGroup.1,
          .dataNew (ConnectToDB host.driver).db,
          .setMailer (createMail (appBeforeMail host w) w.newWaitGroup.2).1,
          .go .listenForMail (appWithMail host w),
          .go .listenForShutdown (appWithMail host w) ]
        ++ serve (appWithMail host w) host,
        (createMail (appBeforeMail host w) w.newWaitGroup.2).2.2) := by
    simp only [main, h]
    rfl
  have hserve : started (serve (appWithMail host w) host) = [] := by
    cases hs : host.serveErr <;> simp [serve, started, hs]
  rw [hmain]
  refine ⟨rfl, rfl, rfl, ?_, hserve, by simp [serve], rfl⟩
  simp only [started, List.filterMap_append] at hserve ⊢
  rw [hserve]
  rfl

/-- C9 at a concrete host: the database opens on the third pass; the two goroutines
are started in order and the server is the last step. -/
theorem main_start_order_witness :
    (ConnectToDB upHost.driver).err = none
    ∧ started (main upHost demoStore).1 = [.listenForMail, .listenForShutdown]
    ∧ (main upHost demoStore).1.getLast? = some (.listenAndServe ":8000") :=
  ⟨by decide, (main_start_order upHost demoStore (by decide)).2.2.2.1, by decide⟩

end Subscription
